import Mathlib

/-!
Verification development for the settlement program (src/settlement_app.py).

The processing core of the program is a pandas pipeline over loosely typed
tables.  We embed it shallowly:

* a cell is a string, an integer quantity, a parsed date, or a missing value
  (pandas NaN / NaT);
* a row is an association list from column names to cells, a table is a column
  list together with a row list;
* `pd.to_datetime(..., errors='coerce')` is an external collaborator and is
  passed in as a parameter `p : Cell → Option SDate`; a cell on which `p`
  fails coerces to `Cell.na`, exactly like NaT;
* `pd.to_numeric(..., errors='coerce').fillna(0)` is embedded by `toNumericD`
  (quantities are modelled as integers: the claims below only concern
  absolute values and signs, which are unaffected by the float/int gap);
* `pd.Timestamp.now()` is passed in as a parameter `today : SDate`;
* keyword patterns handed to `Series.str.contains` are taken as literal
  strings (the configured keywords contain no regex metacharacters); the
  pandas behaviour that the empty joined pattern matches every string is
  embedded faithfully;
* accessing a column that a row does not carry yields `Cell.na` (pandas would
  raise a KeyError; the claims concern tables that carry their domain's
  columns, and the column-presence guard of the previous-month filter is
  modelled exactly).

Mutation matters for one claim (purity of the previous-month filter), so that
function is embedded in state-passing style: `filter_run` returns the pair
(caller's table after the call, returned table), following the source line by
line: the source only copies the frame when it has more than one row, so in
the one-row path the column assignment and the in-place dropna hit the
caller's table.
-/

/-- A calendar date as produced by the external datetime parser. -/
structure SDate where
  year : Nat
  month : Nat
  day : Nat
deriving DecidableEq

/-- A table cell: string, integer quantity, parsed date, or missing (NaN/NaT). -/
inductive Cell where
  | str (s : String)
  | num (n : Int)
  | date (d : SDate)
  | na
deriving DecidableEq

/-- A row: association list column name → cell (first binding wins, as pandas
columns are unique in all runs the source produces). -/
abbrev Row := List (String × Cell)

/-- A table: its column labels and its rows. -/
structure Table where
  cols : List String
  rows : List Row
deriving DecidableEq

/-- `pd.DataFrame()`: the empty frame the source returns on the empty paths. -/
def emptyTable : Table := ⟨[], []⟩

/-- Column read on a row; a missing column reads as NaN. -/
def getCell : Row → String → Cell
  | [], _ => Cell.na
  | p :: rest, c => if p.1 == c then p.2 else getCell rest c

/-- Does the row carry the column? -/
def hasKey (r : Row) (c : String) : Bool := r.any (fun p => p.1 == c)

/-- Replace every binding of column `c` by `v` (pandas column assignment on an
existing column). -/
def replaceKey : Row → String → Cell → Row
  | [], _, _ => []
  | p :: rest, c, v => (if p.1 == c then (c, v) else p) :: replaceKey rest c v

/-- Column write on a row: overwrite the column if present, append it
otherwise (pandas `df[c] = ...`). -/
def setCell (r : Row) (c : String) (v : Cell) : Row :=
  if hasKey r c then replaceKey r c v else r ++ [(c, v)]

/-- Column-wise assignment `df[c] = f(row)` on a whole table. -/
def setColF (t : Table) (c : String) (f : Row → Cell) : Table :=
  ⟨if t.cols.contains c then t.cols else t.cols ++ [c],
   t.rows.map (fun r => setCell r c (f r))⟩

/-- Boolean-mask row filter `df[mask]`. -/
def filterRows (t : Table) (q : Row → Bool) : Table :=
  ⟨t.cols, t.rows.filter q⟩

/-- Is the cell missing? -/
def isNaCell : Cell → Bool
  | Cell.na => true
  | _ => false

/-- `pd.to_numeric(errors='coerce').fillna(0)` on one cell. -/
def toNumericD : Cell → Int
  | Cell.num n => n
  | Cell.str s => (s.toInt?).getD 0
  | _ => 0

/-- `astype(str)` on one cell (pandas renders NaN as the string "nan"). -/
def cellToStr : Cell → String
  | Cell.str s => s
  | Cell.num n => toString n
  | Cell.date d => toString d.year ++ "-" ++ toString d.month ++ "-" ++ toString d.day
  | Cell.na => "nan"

/-- Pandas scalar equality of a cell with a string (`series == "v"`): NaN and
non-string cells compare unequal. -/
def cellEqStrB (c : Cell) (v : String) : Bool :=
  match c with
  | Cell.str s => s == v
  | _ => false

/-- `series.isin(list_of_strings)`: true only for string cells whose value is
in the list. -/
def cellInListStr (c : Cell) (l : List String) : Bool :=
  match c with
  | Cell.str s => l.contains s
  | _ => false

/-- Characters before the first `:` (Python `split(':')[0]`). -/
def takeUntilColon : List Char → List Char
  | [] => []
  | c :: rest => if c = ':' then [] else c :: takeUntilColon rest

/-- Strip whitespace from both ends (Python `strip()`). -/
def trimChars (l : List Char) : List Char :=
  ((l.dropWhile (fun c => c.isWhitespace)).reverse.dropWhile
    (fun c => c.isWhitespace)).reverse

/-- Does `l` contain `needle` as a contiguous sublist?  The empty needle
matches everything. -/
def subListAt : List Char → List Char → Bool
  | _, [] => true
  | [], _ :: _ => false
  | h :: t, n0 :: n1 => (n0 :: n1).isPrefixOf (h :: t) || subListAt t (n0 :: n1)

/-- Literal substring test (the embedding of `pat in s` and of matching the
regex literal `pat`); the empty pattern matches everything. -/
def strContains (s pat : String) : Bool :=
  subListAt s.toList pat.toList

/-- `series.str.contains('|'.join(keywords), na=False)` on one cell, keywords
taken literally.  Pandas quirk embedded exactly: joining an empty keyword
list gives the empty pattern, which matches every string cell. -/
def containsJoinedKeywords (ks : List String) (c : Cell) : Bool :=
  match c with
  | Cell.str s => if ks.isEmpty then true else ks.any (fun k => strContains s k)
  | _ => false

-- ---------------------------------------------------------------------------
-- Previous-month filter (source: filter_by_previous_month, lines 22-39)
-- ---------------------------------------------------------------------------

/-- The (year, month) of the calendar month preceding `today`
(`prev_month_year` / `prev_month` of the source). -/
def prevMonthOf (today : SDate) : Nat × Nat :=
  if today.month > 1 then (today.year, today.month - 1) else (today.year - 1, 12)

/-- Does date `d` lie in the calendar month preceding `today`? -/
def inPrevMonth (today d : SDate) : Bool :=
  d.year == (prevMonthOf today).1 && d.month == (prevMonthOf today).2

/-- One row under `pd.to_datetime(df[dc], errors='coerce')`: the date column
is overwritten by the parse result, NaT for a failed parse. -/
def coerceRow (p : Cell → Option SDate) (dc : String) (r : Row) : Row :=
  setCell r dc (match p (getCell r dc) with
    | some d => Cell.date d
    | none => Cell.na)

/-- Table-level date coercion of column `dc`. -/
def coerceDateCol (p : Cell → Option SDate) (t : Table) (dc : String) : Table :=
  ⟨t.cols, t.rows.map (coerceRow p dc)⟩

/-- `df.dropna(subset=[dc], inplace=True)` as a table transformer. -/
def dropnaDate (t : Table) (dc : String) : Table :=
  ⟨t.cols, t.rows.filter (fun r => !(isNaCell (getCell r dc)))⟩

/-- Keep predicate of the final mask: the (already coerced) date cell lies in
the month preceding `today`. -/
def monthPred (today : SDate) (dc : String) (r : Row) : Bool :=
  match getCell r dc with
  | Cell.date d => inPrevMonth today d
  | _ => false

/-- `df[(year == prev_year) & (month == prev_month)]`. -/
def monthOnly (today : SDate) (t : Table) (dc : String) : Table :=
  ⟨t.cols, t.rows.filter (monthPred today dc)⟩

/-- Tail of the filter after the last-row drop: coerce dates, drop NaT rows,
return the empty frame if nothing is left, else keep previous-month rows. -/
def filterTail (p : Cell → Option SDate) (today : SDate) (t : Table) (dc : String) : Table :=
  if (dropnaDate (coerceDateCol p t dc) dc).rows.isEmpty then emptyTable
  else monthOnly today (dropnaDate (coerceDateCol p t dc) dc) dc

/-- State-passing embedding of `filter_by_previous_month`: returns
(the caller's table after the call, the returned table).  The source takes a
copy only on the `len(df) > 1` path; on the one-row path the date coercion
and the in-place dropna are applied to the caller's frame. -/
def filter_run (p : Cell → Option SDate) (today : SDate) (t : Table) (dc : String) :
    Table × Table :=
  if !(t.cols.contains dc) || t.rows.isEmpty then (t, emptyTable)
  else if t.rows.length > 1 then
    (t, filterTail p today ⟨t.cols, t.rows.dropLast⟩ dc)
  else
    (dropnaDate (coerceDateCol p t dc) dc, filterTail p today t dc)

/-- The value returned by `filter_by_previous_month`. -/
def filter_by_previous_month (p : Cell → Option SDate) (today : SDate) (t : Table)
    (dc : String) : Table :=
  (filter_run p today t dc).2

/-- Specification-side row selector: a row survives the previous-month filter
iff its date cell parses to a date of the preceding month; the surviving row
carries the parsed date in the date column. -/
def prevMonthKeep (p : Cell → Option SDate) (today : SDate) (dc : String) (r : Row) :
    Option Row :=
  match p (getCell r dc) with
  | some d => if inPrevMonth today d then some (setCell r dc (Cell.date d)) else none
  | none => none

-- fixtures for the purity counter-run (one-row table, unparseable date)
def noParse : Cell → Option SDate := fun _ => none
def today0 : SDate := ⟨2025, 10, 12⟩
def oneRowTable : Table := ⟨["일자"], [[("일자", Cell.str "zzz")]]⟩

-- fixture parser: date cells are already parsed, everything else is NaT
def pDate : Cell → Option SDate := fun c =>
  match c with
  | Cell.date d => some d
  | _ => none

-- fixture table for the previous-month filter: one September row, one August
-- row, one trailing summary row
def c4table : Table :=
  ⟨["일자", "수량"],
   [[("일자", Cell.date ⟨2025, 9, 5⟩), ("수량", Cell.num 3)],
    [("일자", Cell.date ⟨2025, 8, 5⟩), ("수량", Cell.num 4)],
    [("일자", Cell.str "합계"), ("수량", Cell.num 7)]]⟩

-- ---------------------------------------------------------------------------
-- Shipping classifier (source: process_shipping_data, lines 44-111)
-- ---------------------------------------------------------------------------

/-- A configured filter value: a scalar or a list (set-exclusion). -/
inductive FilterVal where
  | one (c : Cell)
  | many (l : List Cell)
deriving DecidableEq

/-- Pandas scalar equality between cells (`series == v`): NaN compares
unequal to everything, values of different kinds compare unequal. -/
def cellEqCell (a b : Cell) : Bool :=
  match a, b with
  | Cell.str x, Cell.str y => x == y
  | Cell.num x, Cell.num y => x == y
  | Cell.date x, Cell.date y => x == y
  | _, _ => false

/-- `series.isin(list_of_cells)`. -/
def cellInCells (c : Cell) (l : List Cell) : Bool := l.any (fun v => cellEqCell c v)

/-- Equality of a cell against a configured filter value, as `df[col] != val`
compares on the `_exclude` branch: a scalar never equals a configured list. -/
def cellEqFV (c : Cell) (v : FilterVal) : Bool :=
  match v with
  | FilterVal.one x => cellEqCell c x
  | FilterVal.many _ => false

/-- One configured filter entry (source lines 55-62): keys starting with `_`
are skipped, keys ending in `_exclude` keep rows whose companion column
(key with `_exclude` removed) is not equal to the value, list values keep
rows outside the list, scalar values keep rows equal to the value. -/
def applyFilter1 (t : Table) (col : String) (v : FilterVal) : Table :=
  if col.startsWith "_" then t
  else if col.endsWith "_exclude" then
    filterRows t (fun r => !(cellEqFV (getCell r (col.replace "_exclude" "")) v))
  else match v with
    | FilterVal.many l => filterRows t (fun r => !(cellInCells (getCell r col) l))
    | FilterVal.one x => filterRows t (fun r => cellEqCell (getCell r col) x)

/-- The configured filter loop, in configuration order. -/
def applyFilters (fs : List (String × FilterVal)) (t : Table) : Table :=
  fs.foldl (fun acc cv => applyFilter1 acc cv.1 cv.2) t

/-- Brand normalisation (data-model invariant): substring before the first
`:`, whitespace-trimmed (`.str.split(':').str[0].str.strip()`). -/
def normBrandStr (s : String) : String :=
  String.mk (trimChars (takeUntilColon s.toList))

/-- Everything after the first occurrence of `": "`, when present. -/
def afterColonSpace : List Char → Option (List Char)
  | [] => none
  | h :: t =>
    if [':', ' '].isPrefixOf (h :: t) then some (t.drop 1)
    else afterColonSpace t

/-- Channel normalisation (source line 64): the part after the first `": "`
when the value contains one, the value itself otherwise
(`x.split(': ', 1)[1] if ': ' in x else x`). -/
def channelTail (s : String) : String :=
  match afterColonSpace s.toList with
  | some rest => String.mk rest
  | none => s

/-- The seeding override (brand, mall) → category. -/
structure SeedingMap where
  brand : String
  mall : String
  category : String
deriving DecidableEq

/-- The shipping ruleset (`CONFIG['rules']['shipping']`): `normalTypes` is
`type_conditions.normal_type`, `normalMallKeywords` is
`type_conditions.normal_mall_keywords`. -/
structure ShippingConfig where
  dateCol : String
  filters : List (String × FilterVal)
  normalTypes : List String
  normalMallKeywords : List String
  mallList : List String
  categoryMap : List (String × String)
  seedingMap : Option SeedingMap
  finalColumns : List (String × String)
deriving DecidableEq

/-- The shipping table after previous-month filtering, brand normalisation
and exclusion, the configured filters, and channel normalisation (source
lines 49-64): the table on which the type/mall classification then runs. -/
def shippingFiltered (cfg : ShippingConfig) (excluded : List String)
    (p : Cell → Option SDate) (today : SDate) (df : Table) : Table :=
  let df1 := filter_by_previous_month p today df cfg.dateCol
  let df2 := setColF df1 "[브랜드]"
    (fun r => Cell.str (normBrandStr (cellToStr (getCell r "[브랜드]"))))
  let df3 := filterRows df2 (fun r => !(cellInListStr (getCell r "[브랜드]") excluded))
  let df4 := applyFilters cfg.filters df3
  setColF df4 "[매출처]" (fun r => Cell.str (channelTail (cellToStr (getCell r "[매출처]"))))

/-- The normal-shipment-type predicate `is_normal` (source lines 67-69):
membership of the shipment type in the configured normal types, OR type
equal to the first configured normal type AND channel matching the joined
keywords.  The source indexes `normal_type[0]` and raises on an empty
configured list; `headD ""` stands in, and every theorem about this
predicate assumes a non-empty configured normal-type list. -/
def isNormalRow (cfg : ShippingConfig) (r : Row) : Bool :=
  (cellEqStrB (getCell r "[택배사]") (cfg.normalTypes.headD "")
      && containsJoinedKeywords cfg.normalMallKeywords (getCell r "[매출처]"))
    || cellInListStr (getCell r "[택배사]") cfg.normalTypes

/-- Mall-allowlist membership of the (normalised) channel (source line 74). -/
def inMallRow (cfg : ShippingConfig) (r : Row) : Bool :=
  cellInListStr (getCell r "[매출처]") cfg.mallList

/-- Category-map lookup with the `default` entry as fallback, then the
literal "기타" (source line 80). -/
def mapCategory (catMap : List (String × String)) (c : Cell) : String :=
  match c with
  | Cell.str s =>
    match catMap.lookup s with
    | some v => v
    | none => (catMap.lookup "default").getD "기타"
  | _ => (catMap.lookup "default").getD "기타"

/-- `assign_category` (source lines 77-84): category map on the channel,
then the seeding override forced on exact (brand, mall) matches. -/
def assign_category (d : Table) (catMap : List (String × String))
    (seed : Option SeedingMap) : Table :=
  if d.rows.isEmpty then d else
  let d1 := setColF d "구분(new)"
    (fun r => Cell.str (mapCategory catMap (getCell r "[매출처]")))
  match seed with
  | none => d1
  | some sm =>
    ⟨d1.cols, d1.rows.map (fun r =>
      if cellEqStrB (getCell r "[브랜드]") sm.brand
          && cellEqStrB (getCell r "[매출처]") sm.mall
      then setCell r "구분(new)" (Cell.str sm.category) else r)⟩

/-- Python dict insertion with overwrite. -/
def dictInsert (m : List (String × String)) (k v : String) : List (String × String) :=
  if m.any (fun q => q.1 == k) then m.map (fun q => if q.1 == k then (k, v) else q)
  else m ++ [(k, v)]

/-- The rename map `{v: k for k, v in cols_map.items() if not k.startswith('_')}`
updated with the three fixed entries (source lines 95-96 and 155-156). -/
def mkRenameMap (colsMap : List (String × String)) : List (String × String) :=
  let base := colsMap.foldl
    (fun acc kv => if kv.1.startsWith "_" then acc else dictInsert acc kv.2 kv.1) []
  dictInsert (dictInsert (dictInsert base "구분(new)" "구분(new)") "자료출처" "자료출처")
    "단위" "단위(EA)"

/-- `df.rename(columns=rm)` on a row: keys renamed, values untouched. -/
def renameRow (rm : List (String × String)) (r : Row) : Row :=
  r.map (fun q => ((rm.lookup q.1).getD q.1, q.2))

/-- `df.rename(columns=rm)` on a table. -/
def renameCols (t : Table) (rm : List (String × String)) : Table :=
  ⟨t.cols.map (fun c => (rm.lookup c).getD c), t.rows.map (renameRow rm)⟩

/-- Materialise each listed column as NaN when absent (source lines 104-105). -/
def ensureCols (t : Table) (cs : List String) : Table :=
  cs.foldl (fun acc c => if acc.cols.contains c then acc
                         else setColF acc c (fun _ => Cell.na)) t

/-- `final_df[[c for c in col_order if c in final_df.columns]]`. -/
def selectCols (t : Table) (cs : List String) : Table :=
  ⟨cs.filter (fun c => t.cols.contains c),
   t.rows.map (fun r => (cs.filter (fun c => t.cols.contains c)).map
     (fun c => (c, getCell r c)))⟩

/-- The fixed output column order of the shipping and return sheets. -/
def stdColOrder : List String :=
  ["일자", "주문번호", "구분(new)", "구분", "상품코드", "품목명", "단위(EA)", "수량", "자료출처"]

/-- `finalize` of the shipping classifier (source lines 89-107): stamp the
data-source label and the unit, rename to canonical names, materialise
missing canonical columns, and select the fixed column order (with a leading
shipment-type column for the type-anomaly table). -/
def finalizeShipping (d : Table) (colsMap : List (String × String))
    (is_abnormal : Bool) : Table :=
  if d.rows.isEmpty then emptyTable else
  let d1 := setColF d "자료출처" (fun _ => Cell.str "삼일 출고데이터")
  let d2 := setColF d1 "단위" (fun _ => Cell.num 1)
  let d3 := renameCols d2 (mkRenameMap colsMap)
  let order := (if is_abnormal then ["출고타입"] else []) ++ stdColOrder
  selectCols (ensureCols d3 order) order

/-- `process_shipping_data` (source lines 44-111): returns
(main shipment table, type-anomaly table, mall-anomaly table). -/
def process_shipping_data (cfg : ShippingConfig) (excluded : List String)
    (p : Cell → Option SDate) (today : SDate) (df : Table) :
    Table × Table × Table :=
  if df.rows.isEmpty then (emptyTable, emptyTable, emptyTable) else
  if (filter_by_previous_month p today df cfg.dateCol).rows.isEmpty then
    (emptyTable, emptyTable, emptyTable)
  else
    let df5 := shippingFiltered cfg excluded p today df
    let dfMain := filterRows (filterRows df5 (fun r => isNormalRow cfg r))
      (fun r => inMallRow cfg r)
    let dfStoreAb := filterRows (filterRows df5 (fun r => isNormalRow cfg r))
      (fun r => !(inMallRow cfg r))
    let dfTypeAb := filterRows df5 (fun r => !(isNormalRow cfg r))
    (finalizeShipping (assign_category dfMain cfg.categoryMap cfg.seedingMap)
       cfg.finalColumns false,
     finalizeShipping dfTypeAb cfg.finalColumns true,
     finalizeShipping (assign_category dfStoreAb cfg.categoryMap cfg.seedingMap)
       cfg.finalColumns false)

/-- Membership predicate of the main-shipment bucket. -/
def pMainRow (cfg : ShippingConfig) (r : Row) : Bool :=
  isNormalRow cfg r && inMallRow cfg r

/-- Membership predicate of the type-anomaly bucket. -/
def pTypeAbRow (cfg : ShippingConfig) (r : Row) : Bool :=
  !(isNormalRow cfg r)

/-- Membership predicate of the mall-anomaly bucket. -/
def pMallAbRow (cfg : ShippingConfig) (r : Row) : Bool :=
  isNormalRow cfg r && !(inMallRow cfg r)

/-- Specification-side predicate for the refinement claim C9, following the
claim's words: plain membership of the shipment-type value in the configured
normal-type list. -/
def typeNormalSpec (cfg : ShippingConfig) (r : Row) : Bool :=
  cellInListStr (getCell r "[택배사]") cfg.normalTypes

/-- Specification-side keyword condition of claim C6, following the claim's
words: the channel value contains at least one of the configured keywords as
a substring (so it holds for no row when no keyword is configured). -/
def specKeywordHolds (ks : List String) (c : Cell) : Prop :=
  match c with
  | Cell.str s => ∃ k ∈ ks, strContains s k = true
  | _ => False

-- shipping fixture: one normal mall-listed row, one normal non-listed row,
-- one abnormal-type row, all in the previous month of today0
def shipCfg0 : ShippingConfig :=
  ⟨"[일자]", [], ["택배"], [], ["쿠팡"], [("쿠팡", "온라인")], none, [("일자", "[일자]")]⟩

def shipTable0 : Table :=
  ⟨["[일자]", "[브랜드]", "[매출처]", "[택배사]"],
   [[("[일자]", Cell.date ⟨2025, 9, 1⟩), ("[브랜드]", Cell.str "브랜드A"),
     ("[매출처]", Cell.str "쿠팡"), ("[택배사]", Cell.str "택배")],
    [("[일자]", Cell.date ⟨2025, 9, 2⟩), ("[브랜드]", Cell.str "브랜드A"),
     ("[매출처]", Cell.str "기타몰"), ("[택배사]", Cell.str "택배")],
    [("[일자]", Cell.date ⟨2025, 9, 3⟩), ("[브랜드]", Cell.str "브랜드A"),
     ("[매출처]", Cell.str "쿠팡"), ("[택배사]", Cell.str "직접배송")]]⟩

-- fixture row for the type-normal predicate claims
def c6row : Row := [("[택배사]", Cell.str "택배"), ("[매출처]", Cell.str "쿠팡")]

-- ---------------------------------------------------------------------------
-- Return classifier (source: process_return_data, lines 113-160)
-- ---------------------------------------------------------------------------

/-- The return ruleset (`CONFIG['rules']['return']`). -/
structure ReturnConfig where
  dateCol : String
  brandCol : String
  qtyCol : String
  statusCol : String
  badPasonMap : List (String × String)
  finalColumns : List (String × String)
deriving DecidableEq

/-- Sanity of the configured column names: the quantity and status columns
are distinct from each other and from the literal meta columns the
classifier writes ("구분(new)", "자료출처", "단위").  Every real
configuration satisfies this; it rules out degenerate configurations in
which a meta-column assignment would overwrite the quantity or status
column. -/
def ReturnConfig.wf (cfg : ReturnConfig) : Prop :=
  cfg.qtyCol ≠ "구분(new)" ∧ cfg.qtyCol ≠ "자료출처" ∧ cfg.qtyCol ≠ "단위" ∧
  cfg.statusCol ≠ "구분(new)" ∧ cfg.statusCol ≠ "자료출처" ∧ cfg.statusCol ≠ "단위" ∧
  cfg.statusCol ≠ cfg.qtyCol

/-- `.map(bad_pason_map)` on a status cell: mapped category, NaN on a miss. -/
def mapCellStr (m : List (String × String)) (c : Cell) : Cell :=
  match c with
  | Cell.str s =>
    match m.lookup s with
    | some v => Cell.str v
    | none => Cell.na
  | _ => Cell.na

/-- The keys of the configured status → category map. -/
def statusKeys (cfg : ReturnConfig) : List String :=
  cfg.badPasonMap.map (fun q => q.1)

/-- Is the row's status value a key of the configured map
(`df[status_col].isin(bad_pason_map.keys())`)? -/
def statusMapped (cfg : ReturnConfig) (r : Row) : Bool :=
  cellInListStr (getCell r cfg.statusCol) (statusKeys cfg)

/-- `pd.concat([a, b], ignore_index=True)`. -/
def concatTables (a b : Table) : Table :=
  ⟨a.cols ++ b.cols.filter (fun c => !(a.cols.contains c)), a.rows ++ b.rows⟩

/-- The return table after previous-month filtering and brand
normalisation/exclusion (source lines 119-126). -/
def returnFiltered (cfg : ReturnConfig) (excluded : List String)
    (p : Cell → Option SDate) (today : SDate) (df : Table) : Table :=
  let df1 := filter_by_previous_month p today df cfg.dateCol
  let df2 := setColF df1 cfg.brandCol
    (fun r => Cell.str (normBrandStr (cellToStr (getCell r cfg.brandCol))))
  filterRows df2 (fun r => !(cellInListStr (getCell r cfg.brandCol) excluded))

/-- Step 3 (source line 131): the quantity column coerced to numeric with
non-numeric as zero. -/
def returnQtyCoerced (cfg : ReturnConfig) (excluded : List String)
    (p : Cell → Option SDate) (today : SDate) (df : Table) : Table :=
  setColF (returnFiltered cfg excluded p today df) cfg.qtyCol
    (fun r => Cell.num (toNumericD (getCell r cfg.qtyCol)))

/-- Steps 4-7 of the return classifier (source lines 134-152): every
filtered row labelled "반품", mapped-status rows duplicated with the mapped
category, meta columns stamped, quantities replaced by absolute values, and
"반품"-labelled rows negated.  The `*= 1` on "불량" rows (line 152) is a
no-op.  This is the combined table before the final rename and column
selection. -/
def returnCombined (cfg : ReturnConfig) (excluded : List String)
    (p : Cell → Option SDate) (today : SDate) (df : Table) : Table :=
  let lq := returnQtyCoerced cfg excluded p today df
  let dRet := setColF lq "구분(new)" (fun _ => Cell.str "반품")
  let dBad0 := filterRows lq (fun r => statusMapped cfg r)
  let dBad := if dBad0.rows.isEmpty then dBad0
    else setColF dBad0 "구분(new)"
      (fun r => mapCellStr cfg.badPasonMap (getCell r cfg.statusCol))
  let dAll := concatTables dRet dBad
  let d1 := setColF dAll "자료출처" (fun _ => Cell.str "삼일 반품데이터")
  let d2 := setColF d1 "단위" (fun _ => Cell.num 1)
  let d3 := setColF d2 cfg.qtyCol
    (fun r => Cell.num (Int.natAbs (toNumericD (getCell r cfg.qtyCol))))
  ⟨d3.cols, d3.rows.map (fun r =>
    if cellEqStrB (getCell r "구분(new)") "반품"
    then setCell r cfg.qtyCol (Cell.num (-(toNumericD (getCell r cfg.qtyCol))))
    else r)⟩

/-- `process_return_data` (source lines 113-160): the combined table renamed
to canonical column names and restricted to the present columns of the
fixed order. -/
def process_return_data (cfg : ReturnConfig) (excluded : List String)
    (p : Cell → Option SDate) (today : SDate) (df : Table) : Table :=
  if df.rows.isEmpty then emptyTable else
  if (filter_by_previous_month p today df cfg.dateCol).rows.isEmpty then emptyTable
  else
    selectCols (renameCols (returnCombined cfg excluded p today df)
      (mkRenameMap cfg.finalColumns)) stdColOrder

/-- The row transformation applied to each labelled row by steps 6-7 of the
return classifier (meta columns, absolute value, negation of "반품" rows),
used to decompose `returnCombined` row-wise in the proofs. -/
def postRow (cfg : ReturnConfig) (r : Row) : Row :=
  let r1 := setCell r "자료출처" (Cell.str "삼일 반품데이터")
  let r2 := setCell r1 "단위" (Cell.num 1)
  let r3 := setCell r2 cfg.qtyCol
    (Cell.num (Int.natAbs (toNumericD (getCell r2 cfg.qtyCol))))
  if cellEqStrB (getCell r3 "구분(new)") "반품"
  then setCell r3 cfg.qtyCol (Cell.num (-(toNumericD (getCell r3 cfg.qtyCol))))
  else r3

-- return-classifier fixtures: one mapped-status row, one plain row, one
-- trailing summary row
def retCfg0 : ReturnConfig :=
  ⟨"반품일자", "브랜드", "수량원", "상태", [("불량입고", "불량")],
   [("일자", "반품일자"), ("수량", "수량원")]⟩

def retTable0 : Table :=
  ⟨["반품일자", "브랜드", "수량원", "상태"],
   [[("반품일자", Cell.date ⟨2025, 9, 10⟩), ("브랜드", Cell.str "브랜드A"),
     ("수량원", Cell.num 2), ("상태", Cell.str "불량입고")],
    [("반품일자", Cell.date ⟨2025, 9, 11⟩), ("브랜드", Cell.str "브랜드A"),
     ("수량원", Cell.num 5), ("상태", Cell.str "정상")],
    [("반품일자", Cell.str "합계"), ("브랜드", Cell.str ""),
     ("수량원", Cell.num 7), ("상태", Cell.na)]]⟩

-- the relabelled output row produced by the first fixture row
def c3row : Row :=
  [("반품일자", Cell.date ⟨2025, 9, 10⟩), ("브랜드", Cell.str "브랜드A"),
   ("수량원", Cell.num 2), ("상태", Cell.str "불량입고"),
   ("구분(new)", Cell.str "불량"), ("자료출처", Cell.str "삼일 반품데이터"),
   ("단위", Cell.num 1)]

-- ---------------------------------------------------------------------------
-- Receiving classifier (source: process_receiving_data, lines 163-228)
-- ---------------------------------------------------------------------------

/-- The receiving ruleset (`CONFIG['rules']['receiving']`). -/
structure ReceivingConfig where
  dateCol : String
  typeCol : String
  qtyCol : String
  freeTypes : List String
  peculiarFilters : List (String × FilterVal)
  finalColumnsPeculiar : List (String × String)
  finalColumnsFree : List (String × String)
deriving DecidableEq

/-- Sanity of the configured quantity column name: distinct from the two
meta columns stamped before the original quantity is read.  Every real
configuration satisfies this. -/
def ReceivingConfig.wf (cfg : ReceivingConfig) : Prop :=
  cfg.qtyCol ≠ "자료출처" ∧ cfg.qtyCol ≠ "단위"

/-- One peculiar-only filter entry (source lines 176-181): `_`-prefixed keys
skipped, list values keep rows outside the list, scalar values keep rows
not equal to the value. -/
def applyPecFilter1 (t : Table) (col : String) (v : FilterVal) : Table :=
  if col.startsWith "_" then t
  else match v with
    | FilterVal.many l => filterRows t (fun r => !(cellInCells (getCell r col) l))
    | FilterVal.one x => filterRows t (fun r => !(cellEqCell (getCell r col) x))

/-- The peculiar-only filter loop. -/
def applyPecFilters (fs : List (String × FilterVal)) (t : Table) : Table :=
  fs.foldl (fun acc cv => applyPecFilter1 acc cv.1 cv.2) t

/-- The receiving table after previous-month filtering and brand
normalisation/exclusion (source lines 167-171). -/
def recvFiltered (cfg : ReceivingConfig) (excluded : List String)
    (p : Cell → Option SDate) (today : SDate) (df : Table) : Table :=
  let df1 := filter_by_previous_month p today df cfg.dateCol
  let df2 := setColF df1 "[브랜드]"
    (fun r => Cell.str (normBrandStr (cellToStr (getCell r "[브랜드]"))))
  filterRows df2 (fun r => !(cellInListStr (getCell r "[브랜드]") excluded))

/-- The free-normal bucket (membership of the receiving type in the
configured free list, source line 173). -/
def recvFree (cfg : ReceivingConfig) (excluded : List String)
    (p : Cell → Option SDate) (today : SDate) (df : Table) : Table :=
  filterRows (recvFiltered cfg excluded p today df)
    (fun r => cellInListStr (getCell r cfg.typeCol) cfg.freeTypes)

/-- The peculiar bucket after the peculiar-only filters (source lines
174-181). -/
def recvPeculiar (cfg : ReceivingConfig) (excluded : List String)
    (p : Cell → Option SDate) (today : SDate) (df : Table) : Table :=
  applyPecFilters cfg.peculiarFilters
    (filterRows (recvFiltered cfg excluded p today df)
      (fun r => !(cellInListStr (getCell r cfg.typeCol) cfg.freeTypes)))

/-- The receiving rename map (source lines 194-197): inverted configuration
map, skipping `_`-prefixed canonical keys and any entry whose source column
is the quantity column or `단위` (to avoid a collision with the canonical
quantity and unit columns). -/
def mkRenameMapRecv (colsMap : List (String × String)) (qtySrc : String) :
    List (String × String) :=
  colsMap.foldl (fun acc kv =>
    if kv.1.startsWith "_" then acc
    else if kv.2 == qtySrc || kv.2 == "단위" then acc
    else dictInsert acc kv.2 kv.1) []

/-- Characters of the second `" : "`-delimited segment: everything between
the first separator and the next (or the end). -/
def takeUntilSep3 : List Char → List Char
  | [] => []
  | h :: t => if [' ', ':', ' '].isPrefixOf (h :: t) then [] else h :: takeUntilSep3 t

/-- Everything after the first `" : "` separator, when present. -/
def afterSep3 : List Char → Option (List Char)
  | [] => none
  | h :: t =>
    if [' ', ':', ' '].isPrefixOf (h :: t) then some (t.drop 2)
    else afterSep3 t

/-- `series.str.split(' : ').str[1]` on one cell: the second segment when the
text contains at least one `" : "` separator, NaN otherwise (and NaN on
non-string cells). -/
def splitSecondSeg (c : Cell) : Cell :=
  match c with
  | Cell.str s =>
    match afterSep3 s.toList with
    | some rest => Cell.str (String.mk (takeUntilSep3 rest))
    | none => Cell.na
  | _ => Cell.na

/-- The fixed canonical column set of both receiving buckets (source lines
215-218). -/
def recvFinalCols : List String :=
  ["일자", "주문번호", "구분(new)", "구분", "상품코드", "품목명", "단위(EA)", "수량",
   "자료출처", "상태", "상품비고", "브랜드"]

/-- The per-row transformation of the receiving `finalize` (source lines
183-223): stamp the meta columns, capture the original quantity before the
rename, rename, set the canonical quantity (original for the free bucket,
negated absolute value for the peculiar bucket) and new-category (second
`" : "` segment of the renamed original-category column for the free bucket,
"반품" for the peculiar bucket), set the canonical unit, and materialise the
fixed column set (missing columns as NaN).  The source's un-assigned
`drop(columns=['단위'])` is a no-op and has no embedding. -/
def recvRow (cfg : ReceivingConfig) (rm : List (String × String)) (is_free : Bool)
    (r : Row) : Row :=
  let r0 := setCell (setCell r "자료출처" (Cell.str "삼일 입고데이터")) "단위" (Cell.num 1)
  let orig := toNumericD (getCell r0 cfg.qtyCol)
  let r1 := renameRow rm r0
  let r2 := if is_free
    then setCell (setCell r1 "수량" (Cell.num orig)) "구분(new)"
      (splitSecondSeg (getCell r1 "구분"))
    else setCell (setCell r1 "수량" (Cell.num (-((orig.natAbs : Int))))) "구분(new)"
      (Cell.str "반품")
  let r3 := setCell r2 "단위(EA)" (Cell.num 1)
  recvFinalCols.map (fun c => (c, getCell r3 c))

/-- `finalize` of the receiving classifier. -/
def finalizeReceiving (cfg : ReceivingConfig) (d : Table)
    (colsMap : List (String × String)) (is_free : Bool) : Table :=
  if d.rows.isEmpty then emptyTable else
  ⟨recvFinalCols, d.rows.map (recvRow cfg (mkRenameMapRecv colsMap cfg.qtyCol) is_free)⟩

/-- `process_receiving_data` (source lines 163-228): returns
(peculiar/anomalous receiving table, free-normal receiving table). -/
def process_receiving_data (cfg : ReceivingConfig) (excluded : List String)
    (p : Cell → Option SDate) (today : SDate) (df : Table) : Table × Table :=
  if df.rows.isEmpty then (emptyTable, emptyTable) else
  if (filter_by_previous_month p today df cfg.dateCol).rows.isEmpty then
    (emptyTable, emptyTable)
  else
    (finalizeReceiving cfg (recvPeculiar cfg excluded p today df)
       cfg.finalColumnsPeculiar false,
     finalizeReceiving cfg (recvFree cfg excluded p today df)
       cfg.finalColumnsFree true)

-- receiving fixtures: one free row, one peculiar row, one summary row
def recvCfg0 : ReceivingConfig :=
  ⟨"입고일자", "입고구분", "[수량]", ["무상"], [], [("일자", "입고일자")],
   [("일자", "입고일자"), ("구분", "[구분]")]⟩

def recvTable0 : Table :=
  ⟨["입고일자", "[브랜드]", "입고구분", "[수량]", "[구분]"],
   [[("입고일자", Cell.date ⟨2025, 9, 2⟩), ("[브랜드]", Cell.str "브랜드A"),
     ("입고구분", Cell.str "무상"), ("[수량]", Cell.num 4),
     ("[구분]", Cell.str "입고 : 무상임가공")],
    [("입고일자", Cell.date ⟨2025, 9, 3⟩), ("[브랜드]", Cell.str "브랜드A"),
     ("입고구분", Cell.str "특이"), ("[수량]", Cell.num 3),
     ("[구분]", Cell.str "입고 : 반품점검")],
    [("입고일자", Cell.str "합계"), ("[브랜드]", Cell.na),
     ("입고구분", Cell.na), ("[수량]", Cell.num 7), ("[구분]", Cell.na)]]⟩

-- the output rows the receiving fixture produces
def c7pecRow : Row :=
  [("일자", Cell.date ⟨2025, 9, 3⟩), ("주문번호", Cell.na),
   ("구분(new)", Cell.str "반품"), ("구분", Cell.na), ("상품코드", Cell.na),
   ("품목명", Cell.na), ("단위(EA)", Cell.num 1), ("수량", Cell.num (-3)),
   ("자료출처", Cell.str "삼일 입고데이터"), ("상태", Cell.na),
   ("상품비고", Cell.na), ("브랜드", Cell.na)]

def c7freeRow : Row :=
  [("일자", Cell.date ⟨2025, 9, 2⟩), ("주문번호", Cell.na),
   ("구분(new)", Cell.str "무상임가공"), ("구분", Cell.str "입고 : 무상임가공"),
   ("상품코드", Cell.na), ("품목명", Cell.na), ("단위(EA)", Cell.num 1),
   ("수량", Cell.num 4), ("자료출처", Cell.str "삼일 입고데이터"),
   ("상태", Cell.na), ("상품비고", Cell.na), ("브랜드", Cell.na)]

-- ---------------------------------------------------------------------------
-- Report assembly (source: batch processing block, lines 276-309)
-- ---------------------------------------------------------------------------

/-- Zero-padded two-digit rendering. -/
def pad2 (n : Nat) : String := if n < 10 then "0" ++ toString n else toString n

/-- Zero-padded four-digit rendering. -/
def pad4 (n : Nat) : String :=
  if n < 10 then "000" ++ toString n
  else if n < 100 then "00" ++ toString n
  else if n < 1000 then "0" ++ toString n
  else toString n

/-- `strftime('%Y-%m-%d')`. -/
def isoDate (d : SDate) : String :=
  pad4 d.year ++ "-" ++ pad2 d.month ++ "-" ++ pad2 d.day

/-- `format_date_columns` (source lines 288-292): when a `일자` column is
present, re-parse it (`errors='coerce'`) and render it as `YYYY-MM-DD` text,
parse failures becoming NaN. -/
def format_date_columns (p : Cell → Option SDate) (t : Table) : Table :=
  if t.cols.contains "일자" then
    setColF t "일자" (fun r => match p (getCell r "일자") with
      | some d => Cell.str (isoDate d)
      | none => Cell.na)
  else t

/-- The validation tally sheet `검증` (source lines 301-306): the three
shipment-bucket counts and their sum. -/
def validation_table (nMain nType nStore : Nat) : Table :=
  ⟨["항목", "건수"],
   [[("항목", Cell.str "일반 출고"), ("건수", Cell.num (nMain : Int))],
    [("항목", Cell.str "출고타입 이상"), ("건수", Cell.num (nType : Int))],
    [("항목", Cell.str "매출처 이상"), ("건수", Cell.num (nStore : Int))],
    [("항목", Cell.str "처리된 총 출고건수 (검증용)"),
     ("건수", Cell.num ((nMain + nType + nStore : Nat) : Int))]]⟩

/-- The workbook produced by the `pd.ExcelWriter` block (source lines
283-306), modelled as the ordered list of named sheets (byte serialisation
by openpyxl is an external collaborator): the settlement summary is the
concatenation of main shipping and return output; each data sheet is
written only when non-empty; the validation tally is always written last. -/
def build_workbook (p : Cell → Option SDate)
    (mainShip typeAb storeAb mainRet pecRecv freeRecv : Table) :
    List (String × Table) :=
  (if (concatTables mainShip mainRet).rows.isEmpty then []
   else [("정산요약", format_date_columns p (concatTables mainShip mainRet))]) ++
  (if storeAb.rows.isEmpty then []
   else [("매출처 이상", format_date_columns p storeAb)]) ++
  (if typeAb.rows.isEmpty then []
   else [("출고타입 이상", format_date_columns p typeAb)]) ++
  (if pecRecv.rows.isEmpty then []
   else [("입고 특이사항", format_date_columns p pecRecv)]) ++
  (if freeRecv.rows.isEmpty then []
   else [("무상 정상 입고", format_date_columns p freeRecv)]) ++
  [("검증", validation_table mainShip.rows.length typeAb.rows.length
      storeAb.rows.length)]

-- ---------------------------------------------------------------------------
-- Helper lemmas on rows and lists
-- ---------------------------------------------------------------------------

theorem getCell_replaceKey_self (r : Row) (c : String) (v : Cell)
    (h : hasKey r c = true) : getCell (replaceKey r c v) c = v := by
  induction r with
  | nil => simp [hasKey] at h
  | cons p rest ih =>
    simp only [replaceKey]
    by_cases hc : (p.1 == c) = true
    · simp only [hc, if_pos, getCell]
      simp
    · rw [if_neg hc]
      simp only [getCell]
      rw [if_neg hc]
      apply ih
      simp only [hasKey, List.any_cons, Bool.or_eq_true] at h
      rcases h with h | h
      · exact absurd h hc
      · exact h

theorem getCell_append_single_self (r : Row) (c : String) (v : Cell)
    (h : hasKey r c = false) : getCell (r ++ [(c, v)]) c = v := by
  induction r with
  | nil => simp [getCell]
  | cons p rest ih =>
    simp only [hasKey, List.any_cons, Bool.or_eq_false_iff] at h
    rw [List.cons_append]
    simp only [getCell]
    rw [if_neg (by simp [h.1])]
    exact ih h.2

theorem getCell_setCell_self (r : Row) (c : String) (v : Cell) :
    getCell (setCell r c v) c = v := by
  unfold setCell
  by_cases h : hasKey r c = true
  · rw [if_pos h]
    exact getCell_replaceKey_self r c v h
  · rw [if_neg h]
    exact getCell_append_single_self r c v (by simpa using h)

theorem getCell_replaceKey_ne (r : Row) (c c2 : String) (v : Cell)
    (h : c ≠ c2) : getCell (replaceKey r c v) c2 = getCell r c2 := by
  induction r with
  | nil => simp [replaceKey]
  | cons p rest ih =>
    simp only [replaceKey]
    by_cases hc : (p.1 == c) = true
    · have hp1 : p.1 = c := by simpa using hc
      have hne : (c == c2) = false := by simpa using h
      rw [if_pos hc]
      simp only [getCell, hne, hp1]
      rw [if_neg (by simp), if_neg (by simp [hne]), ih]
    · rw [if_neg hc]
      simp only [getCell]
      by_cases hp : (p.1 == c2) = true
      · rw [if_pos hp, if_pos hp]
      · rw [if_neg hp, if_neg hp, ih]

theorem getCell_append_single_ne (r : Row) (c c2 : String) (v : Cell)
    (h : c ≠ c2) : getCell (r ++ [(c, v)]) c2 = getCell r c2 := by
  induction r with
  | nil =>
    have hne : (c == c2) = false := by simpa using h
    simp [getCell, hne]
  | cons p rest ih =>
    rw [List.cons_append]
    simp only [getCell]
    by_cases hp : (p.1 == c2) = true
    · rw [if_pos hp, if_pos hp]
    · rw [if_neg hp, if_neg hp, ih]

theorem getCell_setCell_ne (r : Row) (c c2 : String) (v : Cell)
    (h : c ≠ c2) : getCell (setCell r c v) c2 = getCell r c2 := by
  unfold setCell
  by_cases hk : hasKey r c = true
  · rw [if_pos hk]
    exact getCell_replaceKey_ne r c c2 v h
  · rw [if_neg hk]
    exact getCell_append_single_ne r c c2 v h

theorem length_filter_partition {α : Type} (q : α → Bool) (l : List α) :
    (l.filter q).length + (l.filter (fun a => !(q a))).length = l.length := by
  induction l with
  | nil => rfl
  | cons a l ih =>
    rw [List.filter_cons, List.filter_cons]
    by_cases h : q a = true
    · rw [if_pos h, if_neg (by simp [h])]
      simp only [List.length_cons]
      omega
    · simp only [Bool.not_eq_true] at h
      rw [if_neg (by simp [h]), if_pos (by simp [h])]
      simp only [List.length_cons]
      omega

/-- The composed pipeline coerce → dropna → month-mask equals a single
`filterMap` by `prevMonthKeep`, at the level of row lists. -/
theorem monthRows_eq (p : Cell → Option SDate) (today : SDate) (dc : String)
    (rs : List Row) :
    ((rs.map (coerceRow p dc)).filter
        (fun r => !(isNaCell (getCell r dc)))).filter (monthPred today dc)
      = rs.filterMap (prevMonthKeep p today dc) := by
  induction rs with
  | nil => rfl
  | cons r rs ih =>
    simp only [List.map_cons, List.filterMap_cons]
    cases hp : p (getCell r dc) with
    | none =>
      have hg : getCell (coerceRow p dc r) dc = Cell.na := by
        simp [coerceRow, hp, getCell_setCell_self]
      have hdrop : List.filter (fun r => !(isNaCell (getCell r dc)))
          (coerceRow p dc r :: List.map (coerceRow p dc) rs)
          = List.filter (fun r => !(isNaCell (getCell r dc)))
              (List.map (coerceRow p dc) rs) := by
        rw [List.filter_cons]
        simp [hg, isNaCell]
      rw [hdrop, ih]
      simp [prevMonthKeep, hp]
    | some d =>
      have hg : getCell (coerceRow p dc r) dc = Cell.date d := by
        simp [coerceRow, hp, getCell_setCell_self]
      have hkeep : List.filter (fun r => !(isNaCell (getCell r dc)))
          (coerceRow p dc r :: List.map (coerceRow p dc) rs)
          = coerceRow p dc r :: List.filter (fun r => !(isNaCell (getCell r dc)))
              (List.map (coerceRow p dc) rs) := by
        rw [List.filter_cons]
        simp [hg, isNaCell]
      rw [hkeep, List.filter_cons, ih]
      by_cases hm : inPrevMonth today d = true
      · simp [monthPred, hg, hm, prevMonthKeep, hp, coerceRow, getCell_setCell_self]
      · simp only [Bool.not_eq_true] at hm
        simp [monthPred, hg, hm, prevMonthKeep, hp, coerceRow, getCell_setCell_self]

/-- The tail of the previous-month filter (coerce, dropna, month mask, with
the early empty return) selects exactly the `prevMonthKeep` rows. -/
theorem filterTail_rows (p : Cell → Option SDate) (today : SDate) (t : Table)
    (dc : String) :
    (filterTail p today t dc).rows = t.rows.filterMap (prevMonthKeep p today dc) := by
  unfold filterTail
  by_cases he : (dropnaDate (coerceDateCol p t dc) dc).rows.isEmpty = true
  · rw [if_pos he]
    have hnil : ((t.rows.map (coerceRow p dc)).filter
        (fun r => !(isNaCell (getCell r dc)))) = [] := by
      simpa [dropnaDate, coerceDateCol] using he
    have key := monthRows_eq p today dc t.rows
    rw [hnil] at key
    simp only [List.filter_nil] at key
    exact key
  · rw [if_neg he]
    exact monthRows_eq p today dc t.rows

/-- Claim C4: for every table and date-column name, the previous-month filter
returns exactly the rows — after unconditionally dropping the last row
whenever the table has more than one row — whose date parses successfully and
lies in the calendar month preceding `today` (the January wrap lives in
`prevMonthOf`); rows with unparseable dates are excluded, and an absent date
column or empty input yields an empty frame rather than an error.  Surviving
rows carry the parsed date in the date column, as in the source. -/
theorem filter_prev_month_spec (p : Cell → Option SDate) (today : SDate)
    (t : Table) (dc : String) :
    ((t.cols.contains dc = false ∨ t.rows = []) →
        filter_by_previous_month p today t dc = emptyTable) ∧
    (t.cols.contains dc = true → t.rows ≠ [] →
        (filter_by_previous_month p today t dc).rows
          = (if t.rows.length > 1 then t.rows.dropLast else t.rows).filterMap
              (prevMonthKeep p today dc)) := by
  constructor
  · intro h
    rcases h with h | h
    · have hm : dc ∉ t.cols := by simpa using h
      simp [filter_by_previous_month, filter_run, hm]
    · simp [filter_by_previous_month, filter_run, h]
  · intro h1 h2
    have h2b : t.rows.isEmpty = false := by
      cases hrows : t.rows with
      | nil => exact absurd hrows h2
      | cons a l => simp [hrows]
    have h1m : dc ∈ t.cols := by simpa using h1
    unfold filter_by_previous_month filter_run
    rw [if_neg (by simp [h1m, h2b])]
    by_cases hl : t.rows.length > 1
    · rw [if_pos hl, if_pos hl]
      exact filterTail_rows p today ⟨t.cols, t.rows.dropLast⟩ dc
    · rw [if_neg hl, if_neg hl]
      exact filterTail_rows p today t dc

/-- Witness for C4 at a concrete three-row table (one previous-month row, one
older row, one unparseable trailing summary row). -/
theorem filter_prev_month_spec_witness :
    c4table.cols.contains "일자" = true ∧ c4table.rows ≠ [] ∧
    (filter_by_previous_month pDate today0 c4table "일자").rows
      = (if c4table.rows.length > 1 then c4table.rows.dropLast else c4table.rows).filterMap
          (prevMonthKeep pDate today0 "일자") :=
  ⟨by decide, by decide,
   (filter_prev_month_spec pDate today0 c4table "일자").2 (by decide) (by decide)⟩

/-- Claim C5 (code bug): the previous-month filter is NOT pure on tables with
exactly one row.  The source only takes a copy on the `len(df) > 1` path, so
for a one-row table the date-column assignment and the in-place dropna hit
the caller's frame: after the call on a one-row table whose date cell does
not parse, the caller's table has lost its row (and in general its date
column has been coerced in place).  This theorem evaluates the embedded
state-passing run at that input: the caller's table after the call differs
from the table passed in. -/
theorem filter_prev_month_mutates_one_row :
    (filter_run noParse today0 oneRowTable "일자").1 ≠ oneRowTable := by decide

theorem rows_length_setColF (t : Table) (c : String) (f : Row → Cell) :
    (setColF t c f).rows.length = t.rows.length := by
  simp [setColF]

theorem rows_length_assign_category (d : Table) (m : List (String × String))
    (s : Option SeedingMap) :
    (assign_category d m s).rows.length = d.rows.length := by
  unfold assign_category
  by_cases hd : d.rows.isEmpty = true
  · rw [if_pos hd]
  · rw [if_neg hd]
    cases s with
    | none => simp [setColF]
    | some sm => simp [setColF]

theorem rows_length_ensureCols (cs : List String) :
    ∀ t : Table, (ensureCols t cs).rows.length = t.rows.length := by
  induction cs with
  | nil => intro t; rfl
  | cons c cs ih =>
    intro t
    have hstep : ensureCols t (c :: cs)
        = ensureCols (if t.cols.contains c then t
                      else setColF t c (fun _ => Cell.na)) cs := rfl
    rw [hstep, ih]
    by_cases h : t.cols.contains c = true
    · rw [if_pos h]
    · rw [if_neg h]
      simp [setColF]

theorem rows_length_finalizeShipping (d : Table) (m : List (String × String))
    (b : Bool) : (finalizeShipping d m b).rows.length = d.rows.length := by
  unfold finalizeShipping
  by_cases hd : d.rows.isEmpty = true
  · rw [if_pos hd]
    have : d.rows = [] := by simpa using hd
    simp [emptyTable, this]
  · rw [if_neg hd]
    simp [selectCols, rows_length_ensureCols, renameCols, setColF]

theorem filter_filter_and {α : Type} (pn pm : α → Bool) (l : List α) :
    (l.filter pn).filter pm = l.filter (fun a => pn a && pm a) := by
  induction l with
  | nil => rfl
  | cons a l ih =>
    rw [List.filter_cons]
    by_cases h : pn a = true
    · rw [if_pos h, List.filter_cons, List.filter_cons]
      by_cases h2 : pm a = true
      · rw [if_pos h2, if_pos (by simp [h, h2]), ih]
      · rw [if_neg h2, if_neg (by simp [h, h2]), ih]
    · rw [if_neg h, List.filter_cons, if_neg (by simp [h]), ih]

theorem filter_prev_empty_input (p : Cell → Option SDate) (today : SDate)
    (t : Table) (dc : String) (h : t.rows = []) :
    filter_by_previous_month p today t dc = emptyTable := by
  simp [filter_by_previous_month, filter_run, h]

theorem applyFilters_rows_nil (fs : List (String × FilterVal)) :
    ∀ t : Table, t.rows = [] → (applyFilters fs t).rows = [] := by
  induction fs with
  | nil => intro t h; exact h
  | cons cv fs ih =>
    intro t h
    have hstep : applyFilters (cv :: fs) t = applyFilters fs (applyFilter1 t cv.1 cv.2) := rfl
    rw [hstep]
    apply ih
    unfold applyFilter1
    by_cases hs : cv.1.startsWith "_" = true
    · rw [if_pos hs]; exact h
    · rw [if_neg hs]
      by_cases he : cv.1.endsWith "_exclude" = true
      · rw [if_pos he]; simp [filterRows, h]
      · rw [if_neg he]
        cases cv.2 with
        | one x => simp [filterRows, h]
        | many l => simp [filterRows, h]

theorem shippingFiltered_rows_nil (cfg : ShippingConfig) (excluded : List String)
    (p : Cell → Option SDate) (today : SDate) (df : Table)
    (h : (filter_by_previous_month p today df cfg.dateCol).rows = []) :
    (shippingFiltered cfg excluded p today df).rows = [] := by
  unfold shippingFiltered
  have h2 : (filterRows (setColF (filter_by_previous_month p today df cfg.dateCol)
      "[브랜드]" (fun r => Cell.str (normBrandStr (cellToStr (getCell r "[브랜드]")))))
      (fun r => !(cellInListStr (getCell r "[브랜드]") excluded))).rows = [] := by
    simp [filterRows, setColF, h]
  have h3 := applyFilters_rows_nil cfg.filters _ h2
  show ((applyFilters cfg.filters (filterRows (setColF
      (filter_by_previous_month p today df cfg.dateCol) "[브랜드]"
      (fun r => Cell.str (normBrandStr (cellToStr (getCell r "[브랜드]")))))
      (fun r => !(cellInListStr (getCell r "[브랜드]") excluded)))).rows.map
      (fun r => setCell r "[매출처]"
        (Cell.str (channelTail (cellToStr (getCell r "[매출처]")))))) = []
  rw [h3]
  rfl

theorem process_shipping_fst (cfg : ShippingConfig) (excluded : List String)
    (p : Cell → Option SDate) (today : SDate) (df : Table)
    (h0 : ¬ df.rows.isEmpty = true)
    (h1 : ¬ (filter_by_previous_month p today df cfg.dateCol).rows.isEmpty = true) :
    (process_shipping_data cfg excluded p today df).1
      = finalizeShipping (assign_category (filterRows (filterRows
          (shippingFiltered cfg excluded p today df) (fun r => isNormalRow cfg r))
          (fun r => inMallRow cfg r)) cfg.categoryMap cfg.seedingMap)
          cfg.finalColumns false := by
  unfold process_shipping_data
  rw [if_neg h0, if_neg h1]

theorem process_shipping_snd (cfg : ShippingConfig) (excluded : List String)
    (p : Cell → Option SDate) (today : SDate) (df : Table)
    (h0 : ¬ df.rows.isEmpty = true)
    (h1 : ¬ (filter_by_previous_month p today df cfg.dateCol).rows.isEmpty = true) :
    (process_shipping_data cfg excluded p today df).2.1
      = finalizeShipping (filterRows (shippingFiltered cfg excluded p today df)
          (fun r => !(isNormalRow cfg r))) cfg.finalColumns true := by
  unfold process_shipping_data
  rw [if_neg h0, if_neg h1]

theorem process_shipping_thd (cfg : ShippingConfig) (excluded : List String)
    (p : Cell → Option SDate) (today : SDate) (df : Table)
    (h0 : ¬ df.rows.isEmpty = true)
    (h1 : ¬ (filter_by_previous_month p today df cfg.dateCol).rows.isEmpty = true) :
    (process_shipping_data cfg excluded p today df).2.2
      = finalizeShipping (assign_category (filterRows (filterRows
          (shippingFiltered cfg excluded p today df) (fun r => isNormalRow cfg r))
          (fun r => !(inMallRow cfg r))) cfg.categoryMap cfg.seedingMap)
          cfg.finalColumns false := by
  unfold process_shipping_data
  rw [if_neg h0, if_neg h1]

/-- Claim C1: the three tables returned by the shipping classifier partition
the previous-month-filtered, brand-excluded, domain-filtered input
(`shippingFiltered`): each bucket's row count is the count of the rows
satisfying its membership predicate, the three counts sum to the filtered
input's row count, and the three membership predicates are mutually
exclusive and exhaustive on every filtered row.  The hypothesis on the
configured normal-type list reflects that the source indexes
`normal_type[0]` and raises on an empty list. -/
theorem shipping_partition (cfg : ShippingConfig) (excluded : List String)
    (p : Cell → Option SDate) (today : SDate) (df : Table)
    (hne : cfg.normalTypes ≠ []) :
    ((process_shipping_data cfg excluded p today df).1.rows.length
        = ((shippingFiltered cfg excluded p today df).rows.filter (pMainRow cfg)).length)
    ∧ ((process_shipping_data cfg excluded p today df).2.1.rows.length
        = ((shippingFiltered cfg excluded p today df).rows.filter (pTypeAbRow cfg)).length)
    ∧ ((process_shipping_data cfg excluded p today df).2.2.rows.length
        = ((shippingFiltered cfg excluded p today df).rows.filter (pMallAbRow cfg)).length)
    ∧ ((process_shipping_data cfg excluded p today df).1.rows.length
        + (process_shipping_data cfg excluded p today df).2.1.rows.length
        + (process_shipping_data cfg excluded p today df).2.2.rows.length
        = (shippingFiltered cfg excluded p today df).rows.length)
    ∧ (∀ r ∈ (shippingFiltered cfg excluded p today df).rows,
        (pMainRow cfg r = true ∧ pTypeAbRow cfg r = false ∧ pMallAbRow cfg r = false)
        ∨ (pMainRow cfg r = false ∧ pTypeAbRow cfg r = true ∧ pMallAbRow cfg r = false)
        ∨ (pMainRow cfg r = false ∧ pTypeAbRow cfg r = false ∧ pMallAbRow cfg r = true)) := by
  have hexh : ∀ r : Row,
      (pMainRow cfg r = true ∧ pTypeAbRow cfg r = false ∧ pMallAbRow cfg r = false)
      ∨ (pMainRow cfg r = false ∧ pTypeAbRow cfg r = true ∧ pMallAbRow cfg r = false)
      ∨ (pMainRow cfg r = false ∧ pTypeAbRow cfg r = false ∧ pMallAbRow cfg r = true) := by
    intro r
    cases hn : isNormalRow cfg r <;> cases hm2 : inMallRow cfg r <;>
      simp [pMainRow, pTypeAbRow, pMallAbRow, hn, hm2]
  by_cases h0 : df.rows.isEmpty = true
  · have hA : (shippingFiltered cfg excluded p today df).rows = [] :=
      shippingFiltered_rows_nil cfg excluded p today df
        (by rw [filter_prev_empty_input p today df cfg.dateCol (by simpa using h0)]
            rfl)
    have hP : process_shipping_data cfg excluded p today df
        = (emptyTable, emptyTable, emptyTable) := by
      unfold process_shipping_data
      rw [if_pos h0]
    refine ⟨?_, ?_, ?_, ?_, ?_⟩ <;> simp [hP, hA, emptyTable]
  · by_cases h1 : (filter_by_previous_month p today df cfg.dateCol).rows.isEmpty = true
    · have hA : (shippingFiltered cfg excluded p today df).rows = [] :=
        shippingFiltered_rows_nil cfg excluded p today df (by simpa using h1)
      have hP : process_shipping_data cfg excluded p today df
          = (emptyTable, emptyTable, emptyTable) := by
        unfold process_shipping_data
        rw [if_neg h0, if_pos h1]
      refine ⟨?_, ?_, ?_, ?_, ?_⟩ <;> simp [hP, hA, emptyTable]
    · have hm1 : (process_shipping_data cfg excluded p today df).1.rows.length
          = ((shippingFiltered cfg excluded p today df).rows.filter (pMainRow cfg)).length := by
        rw [process_shipping_fst cfg excluded p today df h0 h1,
            rows_length_finalizeShipping, rows_length_assign_category]
        simp only [filterRows]
        rw [filter_filter_and]
        rfl
      have hm2 : (process_shipping_data cfg excluded p today df).2.1.rows.length
          = ((shippingFiltered cfg excluded p today df).rows.filter (pTypeAbRow cfg)).length := by
        rw [process_shipping_snd cfg excluded p today df h0 h1,
            rows_length_finalizeShipping]
        simp only [filterRows]
        rfl
      have hm3 : (process_shipping_data cfg excluded p today df).2.2.rows.length
          = ((shippingFiltered cfg excluded p today df).rows.filter (pMallAbRow cfg)).length := by
        rw [process_shipping_thd cfg excluded p today df h0 h1,
            rows_length_finalizeShipping, rows_length_assign_category]
        simp only [filterRows]
        rw [filter_filter_and]
        rfl
      have e1 : ((shippingFiltered cfg excluded p today df).rows.filter
            (fun r => isNormalRow cfg r)).length
          + ((shippingFiltered cfg excluded p today df).rows.filter
            (pTypeAbRow cfg)).length
          = (shippingFiltered cfg excluded p today df).rows.length :=
        length_filter_partition (fun r => isNormalRow cfg r)
          (shippingFiltered cfg excluded p today df).rows
      have e2 : ((shippingFiltered cfg excluded p today df).rows.filter
            (pMainRow cfg)).length
          + ((shippingFiltered cfg excluded p today df).rows.filter
            (pMallAbRow cfg)).length
          = ((shippingFiltered cfg excluded p today df).rows.filter
            (fun r => isNormalRow cfg r)).length := by
        have h := length_filter_partition (fun r => inMallRow cfg r)
          ((shippingFiltered cfg excluded p today df).rows.filter
            (fun r => isNormalRow cfg r))
        rw [filter_filter_and, filter_filter_and] at h
        exact h
      exact ⟨hm1, hm2, hm3, by rw [hm1, hm2, hm3]; omega, fun r _ => hexh r⟩

/-- Witness for C1: the fixture table splits 1 / 1 / 1 over the three
buckets and the counts sum to the filtered input's three rows. -/
theorem shipping_partition_witness :
    shipCfg0.normalTypes ≠ [] ∧
    ((process_shipping_data shipCfg0 [] pDate today0 shipTable0).1.rows.length
      + (process_shipping_data shipCfg0 [] pDate today0 shipTable0).2.1.rows.length
      + (process_shipping_data shipCfg0 [] pDate today0 shipTable0).2.2.rows.length
      = (shippingFiltered shipCfg0 [] pDate today0 shipTable0).rows.length) :=
  ⟨by decide,
   (shipping_partition shipCfg0 [] pDate today0 shipTable0 (by decide)).2.2.2.1⟩

theorem cellEq_head_mem (c : Cell) (ts : List String) (hne : ts ≠ [])
    (h : cellEqStrB c (ts.headD "") = true) : cellInListStr c ts = true := by
  cases ts with
  | nil => exact absurd rfl hne
  | cons t0 rest =>
    cases c with
    | str s =>
      simp only [List.headD_cons, cellEqStrB, beq_iff_eq] at h
      simp [cellInListStr, h]
    | num n => simp [cellEqStrB] at h
    | date d => simp [cellEqStrB] at h
    | na => simp [cellEqStrB] at h

/-- Claim C6: a row is classified type-normal iff its shipment-type value is
in the configured normal-type list, or its type equals the first configured
normal type and its channel contains at least one configured keyword as a
substring (`specKeywordHolds`); when no keyword is configured, the keyword
condition holds for no row and the classification reduces to plain
membership (the check does not fail).  The hypothesis on the normal-type
list reflects that the source indexes `normal_type[0]`. -/
theorem shipping_type_normal_iff (cfg : ShippingConfig) (r : Row)
    (hne : cfg.normalTypes ≠ []) :
    (isNormalRow cfg r = true ↔
      (typeNormalSpec cfg r = true ∨
        (cellEqStrB (getCell r "[택배사]") (cfg.normalTypes.headD "") = true ∧
          specKeywordHolds cfg.normalMallKeywords (getCell r "[매출처]"))))
    ∧ (cfg.normalMallKeywords = [] →
        (¬ specKeywordHolds cfg.normalMallKeywords (getCell r "[매출처]")) ∧
        (isNormalRow cfg r = true ↔ typeNormalSpec cfg r = true)) := by
  have key : ∀ h2 : cellEqStrB (getCell r "[택배사]") (cfg.normalTypes.headD "") = true,
      cellInListStr (getCell r "[택배사]") cfg.normalTypes = true :=
    fun h2 => cellEq_head_mem (getCell r "[택배사]") cfg.normalTypes hne h2
  constructor
  · constructor
    · intro h
      unfold isNormalRow at h
      rw [Bool.or_eq_true, Bool.and_eq_true] at h
      rcases h with ⟨ha, _⟩ | hm
      · exact Or.inl (key ha)
      · exact Or.inl hm
    · intro h
      unfold isNormalRow
      rw [Bool.or_eq_true]
      rcases h with hm | ⟨ha, _⟩
      · exact Or.inr hm
      · exact Or.inr (key ha)
  · intro hks
    have hnk : ¬ specKeywordHolds cfg.normalMallKeywords (getCell r "[매출처]") := by
      rw [hks]
      cases hc : getCell r "[매출처]" <;> simp [specKeywordHolds]
    refine ⟨hnk, ?_, ?_⟩
    · intro h
      unfold isNormalRow at h
      rw [Bool.or_eq_true, Bool.and_eq_true] at h
      rcases h with ⟨ha, _⟩ | hm
      · exact key ha
      · exact hm
    · intro h
      unfold isNormalRow
      rw [Bool.or_eq_true]
      exact Or.inr h

/-- Witness for C6 at a concrete row that carries the first configured
normal type and a mall-listed channel. -/
theorem shipping_type_normal_iff_witness :
    shipCfg0.normalTypes ≠ [] ∧
    (isNormalRow shipCfg0 c6row = true ↔
      (typeNormalSpec shipCfg0 c6row = true ∨
        (cellEqStrB (getCell c6row "[택배사]") (shipCfg0.normalTypes.headD "") = true ∧
          specKeywordHolds shipCfg0.normalMallKeywords (getCell c6row "[매출처]")))) :=
  ⟨by decide, (shipping_type_normal_iff shipCfg0 c6row (by decide)).1⟩

/-- Claim C9: whenever the configured normal-type list is non-empty, the
shipping classifier's type-normal predicate is extensionally equal to plain
membership of the shipment-type value in that list (`typeNormalSpec`): the
channel-keyword clause never changes which rows qualify, because a row whose
type equals the first normal type already passes the membership test. -/
theorem shipping_type_normal_refines_membership (cfg : ShippingConfig) (r : Row)
    (hne : cfg.normalTypes ≠ []) :
    isNormalRow cfg r = typeNormalSpec cfg r := by
  by_cases he : cellEqStrB (getCell r "[택배사]") (cfg.normalTypes.headD "") = true
  · have hm := cellEq_head_mem (getCell r "[택배사]") cfg.normalTypes hne he
    unfold isNormalRow typeNormalSpec
    rw [hm, he]
    simp
  · have he2 : cellEqStrB (getCell r "[택배사]") (cfg.normalTypes.headD "") = false := by
      simpa using he
    unfold isNormalRow typeNormalSpec
    rw [he2]
    simp

/-- Witness for C9 at a concrete row and non-empty configured list. -/
theorem shipping_type_normal_refines_membership_witness :
    shipCfg0.normalTypes ≠ [] ∧
    isNormalRow shipCfg0 c6row = typeNormalSpec shipCfg0 c6row :=
  ⟨by decide, shipping_type_normal_refines_membership shipCfg0 c6row (by decide)⟩

theorem rows_length_selectCols (t : Table) (cs : List String) :
    (selectCols t cs).rows.length = t.rows.length := by
  simp [selectCols]

theorem rows_length_renameCols (t : Table) (rm : List (String × String)) :
    (renameCols t rm).rows.length = t.rows.length := by
  simp [renameCols]

theorem filter_map_comm {α β : Type} (f : α → β) (q : β → Bool) (l : List α) :
    (l.map f).filter q = (l.filter (fun a => q (f a))).map f := by
  induction l with
  | nil => rfl
  | cons a l ih =>
    rw [List.map_cons, List.filter_cons, List.filter_cons]
    by_cases h : q (f a) = true
    · rw [if_pos h, if_pos h, List.map_cons, ih]
    · rw [if_neg h, if_neg h, ih]

theorem returnFiltered_rows_nil (cfg : ReturnConfig) (excluded : List String)
    (p : Cell → Option SDate) (today : SDate) (df : Table)
    (h : (filter_by_previous_month p today df cfg.dateCol).rows = []) :
    (returnFiltered cfg excluded p today df).rows = [] := by
  simp [returnFiltered, filterRows, setColF, h]

theorem returnQtyCoerced_rows (cfg : ReturnConfig) (excluded : List String)
    (p : Cell → Option SDate) (today : SDate) (df : Table) :
    (returnQtyCoerced cfg excluded p today df).rows
      = (returnFiltered cfg excluded p today df).rows.map
          (fun r => setCell r cfg.qtyCol (Cell.num (toNumericD (getCell r cfg.qtyCol)))) := rfl

theorem returnCombined_rows (cfg : ReturnConfig) (excluded : List String)
    (p : Cell → Option SDate) (today : SDate) (df : Table) :
    (returnCombined cfg excluded p today df).rows
      = (((returnQtyCoerced cfg excluded p today df).rows.map
            (fun r => setCell r "구분(new)" (Cell.str "반품")))
          ++ (((returnQtyCoerced cfg excluded p today df).rows.filter
              (fun r => statusMapped cfg r)).map
            (fun r => setCell r "구분(new)"
              (mapCellStr cfg.badPasonMap (getCell r cfg.statusCol))))).map
          (postRow cfg) := by
  by_cases hbe : ((returnQtyCoerced cfg excluded p today df).rows.filter
      (fun r => statusMapped cfg r)).isEmpty = true
  · have h0 : (returnQtyCoerced cfg excluded p today df).rows.filter
        (fun r => statusMapped cfg r) = [] := by
      simpa using hbe
    simp [returnCombined, filterRows, setColF, concatTables, h0, List.map_map,
      postRow, Int.natCast_natAbs]
  · have hbe2 : ((returnQtyCoerced cfg excluded p today df).rows.filter
        (fun r => statusMapped cfg r)).isEmpty = false := by
      simpa using hbe
    simp only [returnCombined, filterRows, setColF, concatTables, hbe2,
      Bool.false_eq_true, if_false, List.map_map]
    congr 1

theorem getCell_postRow_other (cfg : ReturnConfig) (x : Row) (c : String)
    (h1 : c ≠ "자료출처") (h2 : c ≠ "단위") (h3 : c ≠ cfg.qtyCol) :
    getCell (postRow cfg x) c = getCell x c := by
  simp only [postRow]
  split
  · rw [getCell_setCell_ne _ _ _ _ (Ne.symm h3), getCell_setCell_ne _ _ _ _ (Ne.symm h3),
        getCell_setCell_ne _ _ _ _ (Ne.symm h2), getCell_setCell_ne _ _ _ _ (Ne.symm h1)]
  · rw [getCell_setCell_ne _ _ _ _ (Ne.symm h3),
        getCell_setCell_ne _ _ _ _ (Ne.symm h2), getCell_setCell_ne _ _ _ _ (Ne.symm h1)]

theorem getCell_postRow_qty (cfg : ReturnConfig) (hwf : cfg.wf) (x : Row) :
    getCell (postRow cfg x) cfg.qtyCol
      = (if cellEqStrB (getCell x "구분(new)") "반품" = true
         then Cell.num (-(((toNumericD (getCell x cfg.qtyCol)).natAbs : Int)))
         else Cell.num ((toNumericD (getCell x cfg.qtyCol)).natAbs)) := by
  obtain ⟨hq1, hq2, hq3, hs1, hs2, hs3, hsq⟩ := hwf
  have hc2 : getCell (setCell (setCell x "자료출처" (Cell.str "삼일 반품데이터")) "단위"
      (Cell.num 1)) cfg.qtyCol = getCell x cfg.qtyCol := by
    rw [getCell_setCell_ne _ _ _ _ (Ne.symm hq3), getCell_setCell_ne _ _ _ _ (Ne.symm hq2)]
  simp only [postRow]
  rw [hc2, getCell_setCell_ne _ _ _ _ hq1,
      getCell_setCell_ne _ _ _ _ (show "단위" ≠ "구분(new)" from by decide),
      getCell_setCell_ne _ _ _ _ (show "자료출처" ≠ "구분(new)" from by decide)]
  by_cases hlab : cellEqStrB (getCell x "구분(new)") "반품" = true
  · rw [if_pos hlab, if_pos hlab, getCell_setCell_self, getCell_setCell_self]
    rfl
  · rw [if_neg hlab, if_neg hlab, getCell_setCell_self]

theorem lookup_isSome_of_key_mem (m : List (String × String)) (s : String)
    (h : (m.map (fun q => q.1)).contains s = true) : ∃ v, m.lookup s = some v := by
  induction m with
  | nil => simp at h
  | cons kv m ih =>
    obtain ⟨k, v0⟩ := kv
    by_cases hk : (s == k) = true
    · exact ⟨v0, by simp [List.lookup, hk]⟩
    · have h2 : (m.map (fun q => q.1)).contains s = true := by
        simpa [hk] using h
      obtain ⟨v, hv⟩ := ih h2
      exact ⟨v, by simp [List.lookup, hk, hv]⟩

theorem mem_returnCombined_cases (cfg : ReturnConfig) (excluded : List String)
    (p : Cell → Option SDate) (today : SDate) (df : Table) (r : Row)
    (hr : r ∈ (returnCombined cfg excluded p today df).rows) :
    ∃ a ∈ (returnQtyCoerced cfg excluded p today df).rows,
      (r = postRow cfg (setCell a "구분(new)" (Cell.str "반품")))
      ∨ (statusMapped cfg a = true ∧
         r = postRow cfg (setCell a "구분(new)"
              (mapCellStr cfg.badPasonMap (getCell a cfg.statusCol)))) := by
  rw [returnCombined_rows] at hr
  obtain ⟨y, hy, rfl⟩ := List.mem_map.mp hr
  rcases List.mem_append.mp hy with h | h
  · obtain ⟨a, ha, rfl⟩ := List.mem_map.mp h
    exact ⟨a, ha, Or.inl rfl⟩
  · obtain ⟨a, ha, rfl⟩ := List.mem_map.mp h
    have hf := List.mem_filter.mp ha
    exact ⟨a, hf.1, Or.inr ⟨hf.2, rfl⟩⟩

theorem mem_returnQtyCoerced (cfg : ReturnConfig) (excluded : List String)
    (p : Cell → Option SDate) (today : SDate) (df : Table) (a : Row)
    (ha : a ∈ (returnQtyCoerced cfg excluded p today df).rows) :
    ∃ src ∈ (returnFiltered cfg excluded p today df).rows,
      a = setCell src cfg.qtyCol (Cell.num (toNumericD (getCell src cfg.qtyCol))) := by
  rw [returnQtyCoerced_rows] at ha
  obtain ⟨src, hsrc, rfl⟩ := List.mem_map.mp ha
  exact ⟨src, hsrc, rfl⟩

theorem process_return_main_branch (cfg : ReturnConfig) (excluded : List String)
    (p : Cell → Option SDate) (today : SDate) (df : Table)
    (h0 : ¬ df.rows.isEmpty = true)
    (h1 : ¬ (filter_by_previous_month p today df cfg.dateCol).rows.isEmpty = true) :
    process_return_data cfg excluded p today df
      = selectCols (renameCols (returnCombined cfg excluded p today df)
          (mkRenameMap cfg.finalColumns)) stdColOrder := by
  unfold process_return_data
  rw [if_neg h0, if_neg h1]

/-- Claim C2: every (previous-month-filtered, brand-included) return row whose
status value is a key of the configured status→category map yields exactly
two output rows (one "반품"-labelled, one relabelled), and every other row
yields exactly one: the output row count is the unmapped count plus twice
the mapped count; moreover every combined row either carries the "반품"
label or stems from a mapped-status row. -/
theorem return_row_counts (cfg : ReturnConfig) (excluded : List String)
    (p : Cell → Option SDate) (today : SDate) (df : Table) (hwf : cfg.wf) :
    ((process_return_data cfg excluded p today df).rows.length
      = ((returnFiltered cfg excluded p today df).rows.filter
          (fun r => !(statusMapped cfg r))).length
        + 2 * ((returnFiltered cfg excluded p today df).rows.filter
          (fun r => statusMapped cfg r)).length)
    ∧ (∀ r ∈ (returnCombined cfg excluded p today df).rows,
        cellEqStrB (getCell r "구분(new)") "반품" = true ∨ statusMapped cfg r = true) := by
  obtain ⟨hq1, hq2, hq3, hs1, hs2, hs3, hsq⟩ := hwf
  constructor
  · have hsm_qc : ∀ a : Row, statusMapped cfg
        (setCell a cfg.qtyCol (Cell.num (toNumericD (getCell a cfg.qtyCol))))
        = statusMapped cfg a := by
      intro a
      unfold statusMapped
      rw [getCell_setCell_ne _ _ _ _ (Ne.symm hsq)]
    have hLq_filter : (returnQtyCoerced cfg excluded p today df).rows.filter
          (fun r => statusMapped cfg r)
        = ((returnFiltered cfg excluded p today df).rows.filter
            (fun r => statusMapped cfg r)).map
          (fun a => setCell a cfg.qtyCol (Cell.num (toNumericD (getCell a cfg.qtyCol)))) := by
      rw [returnQtyCoerced_rows, filter_map_comm]
      congr 1
      apply List.filter_congr
      intro a _
      exact hsm_qc a
    have hcomb_len : (returnCombined cfg excluded p today df).rows.length
        = (returnFiltered cfg excluded p today df).rows.length
          + ((returnFiltered cfg excluded p today df).rows.filter
              (fun r => statusMapped cfg r)).length := by
      rw [returnCombined_rows, hLq_filter, returnQtyCoerced_rows]
      simp
    by_cases h0 : df.rows.isEmpty = true
    · have hL : (returnFiltered cfg excluded p today df).rows = [] :=
        returnFiltered_rows_nil cfg excluded p today df
          (by rw [filter_prev_empty_input p today df cfg.dateCol (by simpa using h0)]
              rfl)
      have hP : process_return_data cfg excluded p today df = emptyTable := by
        unfold process_return_data
        rw [if_pos h0]
      simp [hP, hL, emptyTable]
    · by_cases h1 : (filter_by_previous_month p today df cfg.dateCol).rows.isEmpty = true
      · have hL : (returnFiltered cfg excluded p today df).rows = [] :=
          returnFiltered_rows_nil cfg excluded p today df (by simpa using h1)
        have hP : process_return_data cfg excluded p today df = emptyTable := by
          unfold process_return_data
          rw [if_neg h0, if_pos h1]
        simp [hP, hL, emptyTable]
      · rw [process_return_main_branch cfg excluded p today df h0 h1,
            rows_length_selectCols, rows_length_renameCols, hcomb_len]
        have hpart := length_filter_partition (fun r => statusMapped cfg r)
          (returnFiltered cfg excluded p today df).rows
        omega
  · intro r hr
    obtain ⟨a, ha, hcase⟩ := mem_returnCombined_cases cfg excluded p today df r hr
    rcases hcase with rfl | ⟨hsm, rfl⟩
    · left
      rw [getCell_postRow_other cfg _ "구분(new)" (by decide) (by decide) (Ne.symm hq1),
          getCell_setCell_self]
      decide
    · right
      unfold statusMapped
      rw [getCell_postRow_other cfg _ cfg.statusCol (hs2) (hs3) (hsq),
          getCell_setCell_ne _ _ _ _ (Ne.symm hs1)]
      exact hsm

/-- Claim C3: in the return classifier's combined output, every row carries a
numeric quantity equal to the absolute value of its (numeric-coerced,
non-numeric-as-zero) source quantity, negated exactly when the row's final
new-category label is "반품" (so "불량" rows and rows with any other mapped
category other than "반품" carry the positive absolute value); and every row
whose status is not a key of the configured map still carries the "반품"
label (so its quantity is ≤ 0). -/
theorem return_qty_sign_rule (cfg : ReturnConfig) (excluded : List String)
    (p : Cell → Option SDate) (today : SDate) (df : Table) (hwf : cfg.wf) :
    ∀ r ∈ (returnCombined cfg excluded p today df).rows,
      ∃ q : Int,
        getCell r cfg.qtyCol = Cell.num q ∧
        (getCell r "구분(new)" = Cell.str "반품" → q = -((q.natAbs : Int)) ∧ q ≤ 0) ∧
        (getCell r "구분(new)" ≠ Cell.str "반품" → q = ((q.natAbs : Int)) ∧ 0 ≤ q) ∧
        (∃ src ∈ (returnFiltered cfg excluded p today df).rows,
           q.natAbs = (toNumericD (getCell src cfg.qtyCol)).natAbs) ∧
        (statusMapped cfg r = false → getCell r "구분(new)" = Cell.str "반품") := by
  intro r hr
  obtain ⟨hq1, hq2, hq3, hs1, hs2, hs3, hsq⟩ := hwf
  have hwf2 : cfg.wf := ⟨hq1, hq2, hq3, hs1, hs2, hs3, hsq⟩
  obtain ⟨a, ha, hcase⟩ := mem_returnCombined_cases cfg excluded p today df r hr
  obtain ⟨src, hsrc, rfl⟩ := mem_returnQtyCoerced cfg excluded p today df a ha
  rcases hcase with rfl | ⟨hsm, rfl⟩
  · -- the "반품"-labelled copy of the row
    have hlab : getCell (postRow cfg (setCell (setCell src cfg.qtyCol
        (Cell.num (toNumericD (getCell src cfg.qtyCol)))) "구분(new)" (Cell.str "반품")))
        "구분(new)" = Cell.str "반품" := by
      rw [getCell_postRow_other cfg _ "구분(new)" (by decide) (by decide) (Ne.symm hq1),
          getCell_setCell_self]
    have hqty := getCell_postRow_qty cfg hwf2 (setCell (setCell src cfg.qtyCol
        (Cell.num (toNumericD (getCell src cfg.qtyCol)))) "구분(new)" (Cell.str "반품"))
    rw [show getCell (setCell (setCell src cfg.qtyCol
          (Cell.num (toNumericD (getCell src cfg.qtyCol)))) "구분(new)" (Cell.str "반품"))
          "구분(new)" = Cell.str "반품" from getCell_setCell_self _ _ _,
        show getCell (setCell (setCell src cfg.qtyCol
          (Cell.num (toNumericD (getCell src cfg.qtyCol)))) "구분(new)" (Cell.str "반품"))
          cfg.qtyCol = Cell.num (toNumericD (getCell src cfg.qtyCol)) from by
          rw [getCell_setCell_ne _ _ _ _ (show "구분(new)" ≠ cfg.qtyCol from Ne.symm hq1),
              getCell_setCell_self]] at hqty
    rw [if_pos (by decide)] at hqty
    refine ⟨-(((toNumericD (Cell.num (toNumericD (getCell src cfg.qtyCol)))).natAbs : Int)),
      hqty, ?_, ?_, ?_, ?_⟩
    · intro _
      constructor <;> omega
    · intro hcon
      have hlab2 : getCell (postRow cfg (setCell (setCell src cfg.qtyCol
          (Cell.num (toNumericD (getCell src cfg.qtyCol)))) "구분(new)" (Cell.str "반품")))
          "구분(new)" = Cell.str "반품" := by
        rw [getCell_postRow_other cfg _ "구분(new)" (by decide) (by decide) (Ne.symm hq1),
            getCell_setCell_self]
      exact absurd hlab2 hcon
    · exact ⟨src, hsrc, by simp [Int.natAbs_abs, toNumericD]⟩
    · intro _
      rw [getCell_postRow_other cfg _ "구분(new)" (by decide) (by decide) (Ne.symm hq1),
          getCell_setCell_self]
  · -- the relabelled copy of a mapped-status row
    have hstat_a : getCell (setCell src cfg.qtyCol
        (Cell.num (toNumericD (getCell src cfg.qtyCol)))) cfg.statusCol
        = getCell src cfg.statusCol := by
      rw [getCell_setCell_ne _ _ _ _ (Ne.symm hsq)]
    obtain ⟨s, hs, hskeys⟩ : ∃ s, getCell (setCell src cfg.qtyCol
        (Cell.num (toNumericD (getCell src cfg.qtyCol)))) cfg.statusCol = Cell.str s
        ∧ (statusKeys cfg).contains s = true := by
      unfold statusMapped at hsm
      cases hcell : getCell (setCell src cfg.qtyCol
          (Cell.num (toNumericD (getCell src cfg.qtyCol)))) cfg.statusCol with
      | str s => exact ⟨s, rfl, by rw [hcell] at hsm; simpa [cellInListStr] using hsm⟩
      | num n => rw [hcell] at hsm; simp [cellInListStr] at hsm
      | date d => rw [hcell] at hsm; simp [cellInListStr] at hsm
      | na => rw [hcell] at hsm; simp [cellInListStr] at hsm
    obtain ⟨cat, hcat⟩ := lookup_isSome_of_key_mem cfg.badPasonMap s hskeys
    have hmap : mapCellStr cfg.badPasonMap (getCell (setCell src cfg.qtyCol
        (Cell.num (toNumericD (getCell src cfg.qtyCol)))) cfg.statusCol)
        = Cell.str cat := by
      rw [hs]
      simp [mapCellStr, hcat]
    have hlab : getCell (postRow cfg (setCell (setCell src cfg.qtyCol
        (Cell.num (toNumericD (getCell src cfg.qtyCol)))) "구분(new)"
        (mapCellStr cfg.badPasonMap (getCell (setCell src cfg.qtyCol
          (Cell.num (toNumericD (getCell src cfg.qtyCol)))) cfg.statusCol))))
        "구분(new)" = Cell.str cat := by
      rw [getCell_postRow_other cfg _ "구분(new)" (by decide) (by decide) (Ne.symm hq1),
          getCell_setCell_self, hmap]
    have hstat_r : statusMapped cfg (postRow cfg (setCell (setCell src cfg.qtyCol
        (Cell.num (toNumericD (getCell src cfg.qtyCol)))) "구분(new)"
        (mapCellStr cfg.badPasonMap (getCell (setCell src cfg.qtyCol
          (Cell.num (toNumericD (getCell src cfg.qtyCol)))) cfg.statusCol))))
        = true := by
      unfold statusMapped
      rw [getCell_postRow_other cfg _ cfg.statusCol hs2 hs3 hsq,
          getCell_setCell_ne _ _ _ _ (Ne.symm hs1)]
      exact hsm
    have hqty := getCell_postRow_qty cfg hwf2 (setCell (setCell src cfg.qtyCol
        (Cell.num (toNumericD (getCell src cfg.qtyCol)))) "구분(new)"
        (mapCellStr cfg.badPasonMap (getCell (setCell src cfg.qtyCol
          (Cell.num (toNumericD (getCell src cfg.qtyCol)))) cfg.statusCol)))
    rw [show getCell (setCell (setCell src cfg.qtyCol
          (Cell.num (toNumericD (getCell src cfg.qtyCol)))) "구분(new)"
          (mapCellStr cfg.badPasonMap (getCell (setCell src cfg.qtyCol
            (Cell.num (toNumericD (getCell src cfg.qtyCol)))) cfg.statusCol)))
          "구분(new)" = Cell.str cat from by rw [getCell_setCell_self, hmap],
        show getCell (setCell (setCell src cfg.qtyCol
          (Cell.num (toNumericD (getCell src cfg.qtyCol)))) "구분(new)"
          (mapCellStr cfg.badPasonMap (getCell (setCell src cfg.qtyCol
            (Cell.num (toNumericD (getCell src cfg.qtyCol)))) cfg.statusCol)))
          cfg.qtyCol = Cell.num (toNumericD (getCell src cfg.qtyCol)) from by
          rw [getCell_setCell_ne _ _ _ _ (show "구분(new)" ≠ cfg.qtyCol from Ne.symm hq1),
              getCell_setCell_self]] at hqty
    by_cases hcatret : cellEqStrB (Cell.str cat) "반품" = true
    · have hcateq : cat = "반품" := by simpa [cellEqStrB] using hcatret
      rw [if_pos hcatret] at hqty
      refine ⟨-(((toNumericD (Cell.num (toNumericD (getCell src cfg.qtyCol)))).natAbs : Int)),
        hqty, ?_, ?_, ?_, ?_⟩
      · intro _
        constructor <;> omega
      · intro hcon
        rw [hcateq] at hlab
        exact absurd hlab hcon
      · exact ⟨src, hsrc, by simp [Int.natAbs_abs, toNumericD]⟩
      · intro hfalse
        rw [hstat_r] at hfalse
        cases hfalse
    · rw [if_neg hcatret] at hqty
      have hcatne : cat ≠ "반품" := by
        intro he
        rw [he] at hcatret
        exact hcatret (by decide)
      refine ⟨(((toNumericD (Cell.num (toNumericD (getCell src cfg.qtyCol)))).natAbs : Int)),
        hqty, ?_, ?_, ?_, ?_⟩
      · intro hcon
        rw [hlab] at hcon
        cases hcon
        exact absurd rfl hcatne
      · intro _
        constructor <;> omega
      · exact ⟨src, hsrc, by simp [Int.natAbs_abs, toNumericD]⟩
      · intro hfalse
        rw [hstat_r] at hfalse
        cases hfalse

/-- Witness for C2: the fixture (one mapped-status row, one plain row, one
trailing summary row) yields 1 + 2·1 = 3 output rows. -/
theorem return_row_counts_witness :
    retCfg0.wf ∧
    (process_return_data retCfg0 [] pDate today0 retTable0).rows.length
      = ((returnFiltered retCfg0 [] pDate today0 retTable0).rows.filter
          (fun r => !(statusMapped retCfg0 r))).length
        + 2 * ((returnFiltered retCfg0 [] pDate today0 retTable0).rows.filter
          (fun r => statusMapped retCfg0 r)).length :=
  ⟨by unfold ReturnConfig.wf; decide,
   (return_row_counts retCfg0 [] pDate today0 retTable0
      (by unfold ReturnConfig.wf; decide)).1⟩

/-- Witness for C3 at the relabelled "불량" output row of the fixture. -/
theorem return_qty_sign_rule_witness :
    (c3row ∈ (returnCombined retCfg0 [] pDate today0 retTable0).rows) ∧
    (∃ q : Int,
      getCell c3row retCfg0.qtyCol = Cell.num q ∧
      (getCell c3row "구분(new)" = Cell.str "반품" → q = -((q.natAbs : Int)) ∧ q ≤ 0) ∧
      (getCell c3row "구분(new)" ≠ Cell.str "반품" → q = ((q.natAbs : Int)) ∧ 0 ≤ q) ∧
      (∃ src ∈ (returnFiltered retCfg0 [] pDate today0 retTable0).rows,
         q.natAbs = (toNumericD (getCell src retCfg0.qtyCol)).natAbs) ∧
      (statusMapped retCfg0 c3row = false → getCell c3row "구분(new)" = Cell.str "반품")) :=
  ⟨by decide,
   return_qty_sign_rule retCfg0 [] pDate today0 retTable0
     (by unfold ReturnConfig.wf; decide) c3row (by decide)⟩

theorem getCell_keyed_map (ks : List String) (g : String → Cell) (c : String)
    (h : ks.contains c = true) :
    getCell (ks.map (fun k => (k, g k))) c = g c := by
  induction ks with
  | nil => simp at h
  | cons k ks ih =>
    simp only [List.map_cons, getCell]
    by_cases hk : (k == c) = true
    · rw [if_pos hk]
      have hkc : k = c := by simpa using hk
      rw [hkc]
    · rw [if_neg hk]
      apply ih
      have hck : ¬ (c = k) := by
        intro he
        rw [he] at hk
        simp at hk
      simpa [hck] using h

theorem process_receiving_fst (cfg : ReceivingConfig) (excluded : List String)
    (p : Cell → Option SDate) (today : SDate) (df : Table)
    (h0 : ¬ df.rows.isEmpty = true)
    (h1 : ¬ (filter_by_previous_month p today df cfg.dateCol).rows.isEmpty = true) :
    (process_receiving_data cfg excluded p today df).1
      = finalizeReceiving cfg (recvPeculiar cfg excluded p today df)
          cfg.finalColumnsPeculiar false := by
  unfold process_receiving_data
  rw [if_neg h0, if_neg h1]

theorem process_receiving_snd (cfg : ReceivingConfig) (excluded : List String)
    (p : Cell → Option SDate) (today : SDate) (df : Table)
    (h0 : ¬ df.rows.isEmpty = true)
    (h1 : ¬ (filter_by_previous_month p today df cfg.dateCol).rows.isEmpty = true) :
    (process_receiving_data cfg excluded p today df).2
      = finalizeReceiving cfg (recvFree cfg excluded p today df)
          cfg.finalColumnsFree true := by
  unfold process_receiving_data
  rw [if_neg h0, if_neg h1]

theorem mem_finalizeReceiving (cfg : ReceivingConfig) (d : Table)
    (colsMap : List (String × String)) (is_free : Bool) (r : Row)
    (hr : r ∈ (finalizeReceiving cfg d colsMap is_free).rows) :
    ∃ src ∈ d.rows, r = recvRow cfg (mkRenameMapRecv colsMap cfg.qtyCol) is_free src := by
  unfold finalizeReceiving at hr
  by_cases hd : d.rows.isEmpty = true
  · rw [if_pos hd] at hr
    simp [emptyTable] at hr
  · rw [if_neg hd] at hr
    obtain ⟨src, hsrc, rfl⟩ := List.mem_map.mp hr
    exact ⟨src, hsrc, rfl⟩

/-- Claim C7: in the receiving classifier output, every peculiar-bucket row
carries new-category "반품" and canonical quantity equal to the negated
absolute value of its numeric-coerced original quantity (hence ≤ 0), and
every free-bucket row carries its numeric-coerced original quantity
unmodified and new-category equal to the second `" : "`-delimited segment of
its (renamed) original-category text. -/
theorem receiving_buckets (cfg : ReceivingConfig) (excluded : List String)
    (p : Cell → Option SDate) (today : SDate) (df : Table) (hwf : cfg.wf) :
    (∀ r ∈ (process_receiving_data cfg excluded p today df).1.rows,
       getCell r "구분(new)" = Cell.str "반품" ∧
       ∃ src ∈ (recvPeculiar cfg excluded p today df).rows, ∃ q : Int,
         getCell r "수량" = Cell.num q ∧
         q = -(((toNumericD (getCell src cfg.qtyCol)).natAbs : Int)) ∧ q ≤ 0)
    ∧ (∀ r ∈ (process_receiving_data cfg excluded p today df).2.rows,
       getCell r "구분(new)" = splitSecondSeg (getCell r "구분") ∧
       ∃ src ∈ (recvFree cfg excluded p today df).rows,
         getCell r "수량" = Cell.num (toNumericD (getCell src cfg.qtyCol))) := by
  obtain ⟨hw1, hw2⟩ := hwf
  by_cases h0 : df.rows.isEmpty = true
  · have hP : process_receiving_data cfg excluded p today df
        = (emptyTable, emptyTable) := by
      unfold process_receiving_data
      rw [if_pos h0]
    constructor <;> (intro r hr; rw [hP] at hr; simp [emptyTable] at hr)
  · by_cases h1 : (filter_by_previous_month p today df cfg.dateCol).rows.isEmpty = true
    · have hP : process_receiving_data cfg excluded p today df
          = (emptyTable, emptyTable) := by
        unfold process_receiving_data
        rw [if_neg h0, if_pos h1]
      constructor <;> (intro r hr; rw [hP] at hr; simp [emptyTable] at hr)
    · have hqty0 : ∀ src : Row, getCell (setCell (setCell src "자료출처"
          (Cell.str "삼일 입고데이터")) "단위" (Cell.num 1)) cfg.qtyCol
          = getCell src cfg.qtyCol := by
        intro src
        rw [getCell_setCell_ne _ _ _ _ (Ne.symm hw2), getCell_setCell_ne _ _ _ _ (Ne.symm hw1)]
      constructor
      · intro r hr
        rw [process_receiving_fst cfg excluded p today df h0 h1] at hr
        obtain ⟨src, hsrc, rfl⟩ := mem_finalizeReceiving _ _ _ _ _ hr
        constructor
        · simp only [recvRow, Bool.false_eq_true, if_false]
          rw [getCell_keyed_map _ _ _ (by decide),
              getCell_setCell_ne _ _ _ _ (by decide),
              getCell_setCell_self]
        · refine ⟨src, hsrc,
            -(((toNumericD (getCell src cfg.qtyCol)).natAbs : Int)), ?_, rfl, by omega⟩
          simp only [recvRow, Bool.false_eq_true, if_false]
          rw [getCell_keyed_map _ _ _ (by decide),
              getCell_setCell_ne _ _ _ _ (by decide),
              getCell_setCell_ne _ _ _ _ (by decide),
              getCell_setCell_self, hqty0 src]
      · intro r hr
        rw [process_receiving_snd cfg excluded p today df h0 h1] at hr
        obtain ⟨src, hsrc, rfl⟩ := mem_finalizeReceiving _ _ _ _ _ hr
        constructor
        · simp only [recvRow, if_true]
          rw [getCell_keyed_map _ _ _ (by decide),
              getCell_keyed_map _ _ _ (by decide),
              getCell_setCell_ne _ _ _ _ (show "단위(EA)" ≠ "구분(new)" from by decide),
              getCell_setCell_self,
              getCell_setCell_ne _ _ _ _ (show "단위(EA)" ≠ "구분" from by decide),
              getCell_setCell_ne _ _ _ _ (show "구분(new)" ≠ "구분" from by decide),
              getCell_setCell_ne _ _ _ _ (show "수량" ≠ "구분" from by decide)]
        · refine ⟨src, hsrc, ?_⟩
          simp only [recvRow, if_true]
          rw [getCell_keyed_map _ _ _ (by decide),
              getCell_setCell_ne _ _ _ _ (show "단위(EA)" ≠ "수량" from by decide),
              getCell_setCell_ne _ _ _ _ (show "구분(new)" ≠ "수량" from by decide),
              getCell_setCell_self, hqty0 src]

/-- Witness for C7 at the fixture's peculiar and free output rows. -/
theorem receiving_buckets_witness :
    recvCfg0.wf ∧
    (c7pecRow ∈ (process_receiving_data recvCfg0 [] pDate today0 recvTable0).1.rows) ∧
    (getCell c7pecRow "구분(new)" = Cell.str "반품" ∧
      ∃ src ∈ (recvPeculiar recvCfg0 [] pDate today0 recvTable0).rows, ∃ q : Int,
        getCell c7pecRow "수량" = Cell.num q ∧
        q = -(((toNumericD (getCell src recvCfg0.qtyCol)).natAbs : Int)) ∧ q ≤ 0) ∧
    (c7freeRow ∈ (process_receiving_data recvCfg0 [] pDate today0 recvTable0).2.rows) ∧
    (getCell c7freeRow "구분(new)" = splitSecondSeg (getCell c7freeRow "구분") ∧
      ∃ src ∈ (recvFree recvCfg0 [] pDate today0 recvTable0).rows,
        getCell c7freeRow "수량" = Cell.num (toNumericD (getCell src recvCfg0.qtyCol))) :=
  ⟨by unfold ReceivingConfig.wf; decide,
   by decide,
   (receiving_buckets recvCfg0 [] pDate today0 recvTable0
      (by unfold ReceivingConfig.wf; decide)).1 c7pecRow (by decide),
   by decide,
   (receiving_buckets recvCfg0 [] pDate today0 recvTable0
      (by unfold ReceivingConfig.wf; decide)).2 c7freeRow (by decide)⟩

theorem format_rows_ne (p : Cell → Option SDate) (t : Table) (h : t.rows ≠ []) :
    (format_date_columns p t).rows ≠ [] := by
  unfold format_date_columns
  split
  · simp [setColF, h]
  · exact h

/-- Claim C10: the validation tally sheet `검증` is part of every produced
workbook, with exactly four rows holding the normal-shipment count, the
type-anomaly count, the mall-anomaly count, and their sum; when the three
shipping tables are empty the tally reads [0, 0, 0, 0]; and it is the only
sheet never omitted — every other sheet present in the workbook has a
non-empty table. -/
theorem validation_sheet_always (p : Cell → Option SDate)
    (a b c d e f : Table) :
    (("검증", validation_table a.rows.length b.rows.length c.rows.length)
        ∈ build_workbook p a b c d e f)
    ∧ ((validation_table a.rows.length b.rows.length c.rows.length).rows.length = 4)
    ∧ ((validation_table a.rows.length b.rows.length c.rows.length).rows.map
        (fun r => getCell r "건수")
        = [Cell.num (a.rows.length : Int), Cell.num (b.rows.length : Int),
           Cell.num (c.rows.length : Int),
           Cell.num ((a.rows.length + b.rows.length + c.rows.length : Nat) : Int)])
    ∧ (∀ nm tb, (nm, tb) ∈ build_workbook p a b c d e f → nm ≠ "검증" → tb.rows ≠ [])
    ∧ (a.rows = [] → b.rows = [] → c.rows = [] →
        (validation_table a.rows.length b.rows.length c.rows.length).rows.map
          (fun r => getCell r "건수")
          = [Cell.num 0, Cell.num 0, Cell.num 0, Cell.num 0]) := by
  refine ⟨?_, rfl, rfl, ?_, ?_⟩
  · unfold build_workbook
    apply List.mem_append_right
    simp
  · intro nm tb hmem hne
    unfold build_workbook at hmem
    simp at hmem
    rcases hmem with ⟨hrows, hnm, htb⟩ | ⟨hrows, hnm, htb⟩ | ⟨hrows, hnm, htb⟩ |
      ⟨hrows, hnm, htb⟩ | ⟨hrows, hnm, htb⟩ | ⟨hnm, htb⟩
    · rw [htb]
      exact format_rows_ne p _ hrows
    · rw [htb]
      exact format_rows_ne p _ hrows
    · rw [htb]
      exact format_rows_ne p _ hrows
    · rw [htb]
      exact format_rows_ne p _ hrows
    · rw [htb]
      exact format_rows_ne p _ hrows
    · exact absurd hnm hne
  · intro ha hb hc
    rw [ha, hb, hc]
    rfl

/-- Witness for C10 on the all-empty run: the tally sheet is present and
reads [0, 0, 0, 0]. -/
theorem validation_sheet_always_witness :
    (("검증", validation_table 0 0 0)
        ∈ build_workbook noParse emptyTable emptyTable emptyTable emptyTable
            emptyTable emptyTable)
    ∧ (validation_table 0 0 0).rows.map (fun r => getCell r "건수")
        = [Cell.num 0, Cell.num 0, Cell.num 0, Cell.num 0] :=
  ⟨(validation_sheet_always noParse emptyTable emptyTable emptyTable emptyTable
      emptyTable emptyTable).1,
   (validation_sheet_always noParse emptyTable emptyTable emptyTable emptyTable
      emptyTable emptyTable).2.2.2.2 rfl rfl rfl⟩
